import Mathlib

/-!
# Todo API worker (`src/index.js`)

A shallow embedding of the request handlers, the route table and the top-level
`fetch` guard of the worker, followed by the properties proved about them.

What lies outside the source file is modelled as follows.

* The document store is the one collection the worker uses, a list of documents
  (`World.docs`). Every call the worker makes to the driver is recorded in
  `World.log`, together with the fault it raised, if any. A call that faults
  leaves the store as it was.
* Whether a driver call faults, which identifier `insertOne` assigns and what
  the clock reads are inputs of a run (`Oracle`).
* `ObjectId.isValid` and `new ObjectId(..)` are parameters (`ObjectIdApi`).
* `findOneAndUpdate` returns the updated document or `null`, as the handler
  expects of it.
* `request.json()` is an input of the request: the parsed value or the fault.
* The router library matches a request against the registrations in order and
  runs the first that applies. A path is the list of the segments between its
  slashes and a route pattern is a list of literal or parameter segments, or
  the wildcard `*`; slashes after the last segment of a pattern are ignored
  and a parameter takes a segment that is not empty.
* Numbers are integers: the handlers only test a number for being zero.
-/

namespace TodoApi

/-! ## Values -/

/-- The identifier type of the store. -/
structure ObjectId where
  hex : String
  deriving DecidableEq

/-- Values of request bodies, stored documents and response bodies: JSON, plus
the two BSON types the worker stores (`Date`, `ObjectId`). -/
inductive Val where
  | null
  | bool (b : Bool)
  | num (n : Int)
  | str (s : String)
  | date (ms : Nat)
  | oid (id : ObjectId)
  | arr (items : List Val)
  | obj (members : List (String × Val))

/-- A stored document: its fields in order. -/
abbrev Doc := List (String × Val)

/-- JavaScript truthiness of a defined value. -/
def Val.truthy : Val → Bool
  | .null => false
  | .bool b => b
  | .num n => n != 0
  | .str s => s != ""
  | _ => true

/-- Truthiness of the result of a property read; `none` is `undefined`. -/
def truthy : Option Val → Bool
  | none => false
  | some v => v.truthy

/-- The expression `a || b` where `a` is the result of a property read. -/
def orElse (a : Option Val) (b : Val) : Val :=
  match a with
  | some v => if v.truthy then v else b
  | none => b

/-- The expression `v.key`: reading a property of `null` throws a `TypeError`,
an object yields its member or `undefined`, and no other JSON value has a
property named `title`, `description` or `completed`. -/
def Val.prop (v : Val) (key : String) : Except String (Option Val) :=
  match v with
  | .null => .error ("Cannot read properties of null (reading '" ++ key ++ "')")
  | .obj ms => .ok (ms.lookup key)
  | _ => .ok none

/-- A property value as the driver serialises it into a document: `undefined`
is written as `null`. -/
def stored : Option Val → Val
  | some v => v
  | none => .null

/-- A nullable document as a value (`null` when absent). -/
def docOrNull : Option Doc → Val
  | some d => .obj d
  | none => .null

/-! ## Documents -/

/-- Whether the document's `_id` is `i`. -/
def Doc.hasId (i : ObjectId) (d : Doc) : Bool :=
  match d.lookup "_id" with
  | some (.oid j) => j == i
  | _ => false

/-- Assign one field: replace it where it stands, or add it at the end. -/
def Doc.set : Doc → String → Val → Doc
  | [], k, v => [(k, v)]
  | (k0, v0) :: rest, k, v =>
    if k0 == k then (k0, v) :: rest else (k0, v0) :: Doc.set rest k v

/-- The update operator `$set`: assign every listed field in turn. -/
def Doc.applySet (d : Doc) (fields : Doc) : Doc :=
  fields.foldl (fun acc kv => Doc.set acc kv.1 kv.2) d

/-- Replace the first document satisfying `p` by its image under `f`. -/
def updateFirst (p : Doc → Bool) (f : Doc → Doc) : List Doc → List Doc
  | [] => []
  | d :: ds => if p d then f d :: ds else d :: updateFirst p f ds

/-! ## The world a request runs in -/

/-- A call to the driver, with the fault it raised (`none`: it succeeded). -/
inductive Event where
  | connectToDatabase (reused : Bool) (fault : Option String)
  | find (fault : Option String)
  | findOne (id : ObjectId) (fault : Option String)
  | insertOne (doc : Doc) (fault : Option String)
  | findOneAndUpdate (id : ObjectId) (fields : Doc) (fault : Option String)
  | deleteOne (id : ObjectId) (fault : Option String)

/-- The fault an event records. -/
def Event.fault : Event → Option String
  | .connectToDatabase _ f => f
  | .find f => f
  | .findOne _ f => f
  | .insertOne _ f => f
  | .findOneAndUpdate _ _ f => f
  | .deleteOne _ f => f

/-- The module-level connection cache (`cachedClient && cachedDb`), the
collection, and the trace of driver calls made so far. -/
structure World where
  cached : Bool
  docs : List Doc
  log : List Event

/-- What the environment decides during one request: the fault (if any) of
each driver call, the identifier `insertOne` assigns, and the successive
readings of the clock (`now k` is the value of the `k`-th `new Date()`). -/
structure Oracle where
  connect : Option String
  find : Option String
  findOne : Option String
  insertOne : Option String
  findOneAndUpdate : Option String
  deleteOne : Option String
  insertedId : ObjectId
  now : Nat → Nat

/-- The two entry points of the driver's identifier class the handlers call:
`ObjectId.isValid(id)` and `new ObjectId(id)`. -/
structure ObjectIdApi where
  isValid : String → Bool
  ofString : String → ObjectId

/-- Computations that read and change the world and may throw a fault with a
message; the world reached when the fault was thrown is kept. -/
def M (α : Type) : Type := World → Except String α × World

/-- Return a value. -/
def M.pure {α : Type} (a : α) : M α := fun w => (.ok a, w)

/-- Sequence two computations; a fault in the first skips the second. -/
def M.bind {α β : Type} (m : M α) (f : α → M β) : M β := fun w =>
  match m w with
  | (.ok a, w1) => f a w1
  | (.error e, w1) => (.error e, w1)

instance : Monad M where
  pure := M.pure
  bind := M.bind

/-- The statement `try { m } catch (err) { h err.message }`. -/
def M.tryCatch {α : Type} (m : M α) (h : String → M α) : M α := fun w =>
  match m w with
  | (.ok a, w1) => (.ok a, w1)
  | (.error e, w1) => h e w1

/-- Throw on a fault, continue with the value otherwise. -/
def M.ofExcept {α : Type} : Except String α → M α
  | .ok a => M.pure a
  | .error e => fun w => (.error e, w)

/-- Record a driver call in the trace. -/
def emit (e : Event) (w : World) : World :=
  { w with log := w.log ++ [e] }

/-! ## Connection provider and collection operations -/

/-- `connectToDatabase(env)`: reuse the cached connection when there is one,
otherwise connect and cache; a failed connect caches nothing. -/
def connectToDatabase (o : Oracle) : M Unit := fun w =>
  if w.cached then
    (.ok (), emit (.connectToDatabase true none) w)
  else
    match o.connect with
    | some msg => (.error msg, emit (.connectToDatabase false (some msg)) w)
    | none => (.ok (), emit (.connectToDatabase false none) { w with cached := true })

/-- `collection.find({}).toArray()`. -/
def Collection.find (o : Oracle) : M (List Doc) := fun w =>
  match o.find with
  | some msg => (.error msg, emit (.find (some msg)) w)
  | none => (.ok w.docs, emit (.find none) w)

/-- `collection.findOne({ _id: i })`. -/
def Collection.findOne (o : Oracle) (i : ObjectId) : M (Option Doc) := fun w =>
  match o.findOne with
  | some msg => (.error msg, emit (.findOne i (some msg)) w)
  | none => (.ok (w.docs.find? (Doc.hasId i)), emit (.findOne i none) w)

/-- `collection.insertOne(doc)`: the driver assigns `_id`; the store rejects an
`_id` it already holds. Returns `result.insertedId`. -/
def Collection.insertOne (o : Oracle) (doc : Doc) : M ObjectId := fun w =>
  match o.insertOne with
  | some msg => (.error msg, emit (.insertOne doc (some msg)) w)
  | none =>
    if w.docs.any (Doc.hasId o.insertedId) then
      (.error "E11000 duplicate key error",
        emit (.insertOne doc (some "E11000 duplicate key error")) w)
    else
      (.ok o.insertedId,
        emit (.insertOne doc none)
          { w with docs := w.docs ++ [("_id", Val.oid o.insertedId) :: doc] })

/-- `collection.findOneAndUpdate({ _id: i }, { $set: fields },
{ returnDocument: 'after' })`: the updated document, or `null` when none
matched. -/
def Collection.findOneAndUpdate (o : Oracle) (i : ObjectId) (fields : Doc) :
    M (Option Doc) := fun w =>
  match o.findOneAndUpdate with
  | some msg => (.error msg, emit (.findOneAndUpdate i fields (some msg)) w)
  | none =>
    (.ok ((w.docs.find? (Doc.hasId i)).map (fun d => d.applySet fields)),
      emit (.findOneAndUpdate i fields none)
        { w with docs := updateFirst (Doc.hasId i) (fun d => d.applySet fields) w.docs })

/-- `collection.deleteOne({ _id: i })`, returning `result.deletedCount`. -/
def Collection.deleteOne (o : Oracle) (i : ObjectId) : M Nat := fun w =>
  match o.deleteOne with
  | some msg => (.error msg, emit (.deleteOne i (some msg)) w)
  | none =>
    (.ok (if w.docs.any (Doc.hasId i) then 1 else 0),
      emit (.deleteOne i none) { w with docs := w.docs.eraseP (Doc.hasId i) })

/-! ## Responses -/

/-- An HTTP response: status, headers, and the value serialised as its body
(`none`: no body). -/
structure Response where
  status : Nat
  headers : List (String × String)
  body : Option Val

/-- The constant `corsHeaders`. -/
def corsHeaders : List (String × String) :=
  [("Access-Control-Allow-Origin", "*"),
   ("Access-Control-Allow-Methods", "GET, POST, PUT, DELETE, OPTIONS"),
   ("Access-Control-Allow-Headers", "Content-Type")]

/-- The content type the router library's `json` helper puts on a response. -/
def jsonContentType : String := "application/json; charset=utf-8"

/-- The helper `json(body, { status, headers })` of the router library: the
body serialised as JSON, the JSON content type, and the given headers. -/
def json (body : Val) (status : Nat) (headers : List (String × String)) : Response :=
  { status := status, headers := ("content-type", jsonContentType) :: headers, body := some body }

/-- A header name in lower case; header names compare without regard to case. -/
def lowerCase (name : String) : String :=
  String.mk (name.data.map Char.toLower)

/-- The value of header `name`, if the response carries it. -/
def Response.header (r : Response) (name : String) : Option String :=
  (r.headers.find? (fun kv => lowerCase kv.1 == lowerCase name)).map Prod.snd

/-! ## Handlers -/

/-- `router.options('*', ...)`: `new Response(null, { headers: corsHeaders })`. -/
def preflight : Response :=
  { status := 200, headers := corsHeaders, body := none }

/-- `router.get('/', ...)`: the service description. -/
def health : Response :=
  json (.obj [("message", .str "MongoDB Hyperdrive Todo API"),
    ("endpoints", .obj [("GET /todos", .str "Get all todos"),
      ("GET /todos/:id", .str "Get todo by ID"),
      ("POST /todos", .str "Create new todo"),
      ("PUT /todos/:id", .str "Update todo"),
      ("DELETE /todos/:id", .str "Delete todo")])]) 200 corsHeaders

/-- `router.all('*', ...)`: the 404 responder. -/
def notFound : Response :=
  json (.obj [("success", .bool false), ("error", .str "Route not found")]) 404 corsHeaders

/-- `router.get('/todos', ...)`. -/
def listTodos (o : Oracle) : M Response :=
  M.tryCatch (do
    connectToDatabase o
    let todos ← Collection.find o
    pure (json (.obj [("success", .bool true), ("count", .num todos.length),
      ("data", .arr (todos.map Val.obj))]) 200 corsHeaders))
  (fun msg => pure (json (.obj [("success", .bool false), ("error", .str msg)]) 500 corsHeaders))

/-- `router.get('/todos/:id', ...)`. -/
def getTodo (api : ObjectIdApi) (o : Oracle) (id : String) : M Response :=
  M.tryCatch (do
    if !api.isValid id then
      pure (json (.obj [("success", .bool false), ("error", .str "Invalid ID format")])
        400 corsHeaders)
    else do
      connectToDatabase o
      let todo ← Collection.findOne o (api.ofString id)
      match todo with
      | none =>
        pure (json (.obj [("success", .bool false), ("error", .str "Todo not found")])
          404 corsHeaders)
      | some d =>
        pure (json (.obj [("success", .bool true), ("data", .obj d)]) 200 corsHeaders))
  (fun msg => pure (json (.obj [("success", .bool false), ("error", .str msg)]) 500 corsHeaders))

/-- `router.post('/todos', ...)`; `body` is the outcome of `request.json()`. -/
def createTodo (o : Oracle) (body : Except String Val) : M Response :=
  M.tryCatch (do
    let body ← M.ofExcept body
    let title ← M.ofExcept (body.prop "title")
    if !truthy title then
      pure (json (.obj [("success", .bool false), ("error", .str "Title is required")])
        400 corsHeaders)
    else do
      connectToDatabase o
      let title ← M.ofExcept (body.prop "title")
      let description ← M.ofExcept (body.prop "description")
      let completed ← M.ofExcept (body.prop "completed")
      let newTodo : Doc :=
        [("title", stored title),
         ("description", orElse description (.str "")),
         ("completed", orElse completed (.bool false)),
         ("createdAt", .date (o.now 0)),
         ("updatedAt", .date (o.now 1))]
      let insertedId ← Collection.insertOne o newTodo
      let insertedTodo ← Collection.findOne o insertedId
      pure (json (.obj [("success", .bool true), ("data", docOrNull insertedTodo)])
        201 corsHeaders))
  (fun msg => pure (json (.obj [("success", .bool false), ("error", .str msg)]) 500 corsHeaders))

/-- The statement `if (v !== undefined) updateFields.key = v`. -/
def setIfDefined (updateFields : Doc) (key : String) (v : Option Val) : Doc :=
  match v with
  | some x => updateFields.set key x
  | none => updateFields

/-- `router.put('/todos/:id', ...)`; `body` is the outcome of `request.json()`. -/
def updateTodo (api : ObjectIdApi) (o : Oracle) (id : String) (body : Except String Val) :
    M Response :=
  M.tryCatch (do
    if !api.isValid id then
      pure (json (.obj [("success", .bool false), ("error", .str "Invalid ID format")])
        400 corsHeaders)
    else do
      let body ← M.ofExcept body
      connectToDatabase o
      let updateFields : Doc := []
      let title ← M.ofExcept (body.prop "title")
      let updateFields := setIfDefined updateFields "title" title
      let description ← M.ofExcept (body.prop "description")
      let updateFields := setIfDefined updateFields "description" description
      let completed ← M.ofExcept (body.prop "completed")
      let updateFields := setIfDefined updateFields "completed" completed
      let updateFields := updateFields.set "updatedAt" (.date (o.now 0))
      let result ← Collection.findOneAndUpdate o (api.ofString id) updateFields
      match result with
      | none =>
        pure (json (.obj [("success", .bool false), ("error", .str "Todo not found")])
          404 corsHeaders)
      | some d =>
        pure (json (.obj [("success", .bool true), ("data", .obj d)]) 200 corsHeaders))
  (fun msg => pure (json (.obj [("success", .bool false), ("error", .str msg)]) 500 corsHeaders))

/-- `router.delete('/todos/:id', ...)`. -/
def deleteTodo (api : ObjectIdApi) (o : Oracle) (id : String) : M Response :=
  M.tryCatch (do
    if !api.isValid id then
      pure (json (.obj [("success", .bool false), ("error", .str "Invalid ID format")])
        400 corsHeaders)
    else do
      connectToDatabase o
      let deletedCount ← Collection.deleteOne o (api.ofString id)
      if deletedCount == 0 then
        pure (json (.obj [("success", .bool false), ("error", .str "Todo not found")])
          404 corsHeaders)
      else
        pure (json (.obj [("success", .bool true),
          ("message", .str "Todo deleted successfully")]) 200 corsHeaders))
  (fun msg => pure (json (.obj [("success", .bool false), ("error", .str msg)]) 500 corsHeaders))

/-! ## Router -/

/-- One segment of a route pattern: a literal, or a named parameter (`:id`). -/
inductive Seg where
  | lit (s : String)
  | param (name : String)

/-- A route pattern: the wildcard `*`, or a sequence of segments. -/
inductive Pattern where
  | any
  | segs (ss : List Seg)

/-- Match a sequence of segments against a path, collecting the parameters, as
the regular expression the router library compiles a route to does: a literal
matches the equal segment, a parameter matches a segment that is not empty, and
after the last segment of the pattern only slashes may follow, that is, only
empty segments. -/
def matchSegs : List Seg → List String → Option (List (String × String))
  | [], rest => if rest.all (fun s => s == "") then some [] else none
  | .lit s :: ss, p :: ps => if s == p then matchSegs ss ps else none
  | .param n :: ss, p :: ps =>
    if p == "" then none else (matchSegs ss ps).map (fun bound => (n, p) :: bound)
  | _ :: _, [] => none

/-- Match a pattern against a path; the result is `request.params`. -/
def Pattern.matches : Pattern → List String → Option (List (String × String))
  | .any, _ => some []
  | .segs ss, path => matchSegs ss path

/-- The handlers registered on the router. -/
inductive Handler where
  | preflight
  | health
  | listTodos
  | getTodo
  | createTodo
  | updateTodo
  | deleteTodo
  | notFound
  deriving DecidableEq

/-- A registration: method (`ALL` for `router.all`), pattern, handler. -/
structure Route where
  method : String
  pattern : Pattern
  handler : Handler

/-- The registrations, in the order the source makes them. -/
def routes : List Route :=
  [⟨"OPTIONS", .any, .preflight⟩,
   ⟨"GET", .segs [], .health⟩,
   ⟨"GET", .segs [.lit "todos"], .listTodos⟩,
   ⟨"GET", .segs [.lit "todos", .param "id"], .getTodo⟩,
   ⟨"POST", .segs [.lit "todos"], .createTodo⟩,
   ⟨"PUT", .segs [.lit "todos", .param "id"], .updateTodo⟩,
   ⟨"DELETE", .segs [.lit "todos", .param "id"], .deleteTodo⟩,
   ⟨"ALL", .any, .notFound⟩]

/-- An incoming request: method, the pathname split at its slashes (`/` is
`[""]`, `/todos` is `["todos"]`, `/todos/` is `["todos", ""]`), and the outcome
of `request.json()` (the parsed body, or the fault parsing raises). -/
structure Request where
  method : String
  path : List String
  body : Except String Val

/-- Whether a registration applies to a request, and with which parameters. -/
def Route.matches (r : Route) (req : Request) : Option (List (String × String)) :=
  if r.method == req.method || r.method == "ALL" then r.pattern.matches req.path else none

/-- The first registration that applies, with the parameters it binds. -/
def firstMatch (rs : List Route) (req : Request) : Option (Handler × List (String × String)) :=
  rs.findSome? (fun r => (r.matches req).map (fun params => (r.handler, params)))

/-- The value of `request.params.id`. Every route whose handler reads `id`
binds it (`firstMatch_routes`), so the default for an unbound parameter is
never used. -/
def paramId (params : List (String × String)) : String :=
  (params.lookup "id").getD ""

/-- Run a handler on a request with its bound parameters. -/
def runHandler (api : ObjectIdApi) (o : Oracle) (params : List (String × String))
    (req : Request) : Handler → M Response
  | .preflight => pure preflight
  | .health => pure health
  | .listTodos => listTodos o
  | .getTodo => getTodo api o (paramId params)
  | .createTodo => createTodo o req.body
  | .updateTodo => updateTodo api o (paramId params) req.body
  | .deleteTodo => deleteTodo api o (paramId params)
  | .notFound => pure notFound

/-- `router.fetch(request, env, ctx)`: the response of the first registration
that applies; no response (`undefined`) when none does. -/
def Router.fetch (api : ObjectIdApi) (o : Oracle) (req : Request) : M (Option Response) :=
  match firstMatch routes req with
  | some (h, params) => do
    let r ← runHandler api o params req h
    pure (some r)
  | none => pure none

/-- The exported `fetch`: the router, with any fault it throws turned into a
500 response. -/
def fetch (api : ObjectIdApi) (o : Oracle) (req : Request) (w : World) :
    Option Response × World :=
  match Router.fetch api o req w with
  | (.ok r, w1) => (r, w1)
  | (.error msg, w1) =>
    (some (json (.obj [("success", .bool false), ("error", .str msg)]) 500 corsHeaders), w1)

/-! ## Notions used to state the properties -/

/-- The member `key` a parsed body explicitly carries: only an object carries
members; `none` when the key is omitted. -/
def Val.field (body : Val) (key : String) : Option Val :=
  match body with
  | .obj ms => ms.lookup key
  | _ => none

/-- The `$set` document `updateFields` the update handler builds from a body
that is not `null`, at clock reading `now`. -/
def updateFieldsOf (body : Val) (now : Nat) : Doc :=
  Doc.set
    (setIfDefined
      (setIfDefined (setIfDefined [] "title" (body.field "title"))
        "description" (body.field "description"))
      "completed" (body.field "completed"))
    "updatedAt" (.date now)

/-- The record the create handler builds from a body that is not `null`, with
the identifier the store assigns to it. -/
def createdRecord (o : Oracle) (body : Val) : Doc :=
  [("_id", .oid o.insertedId),
   ("title", stored (body.field "title")),
   ("description", orElse (body.field "description") (.str "")),
   ("completed", orElse (body.field "completed") (.bool false)),
   ("createdAt", .date (o.now 0)),
   ("updatedAt", .date (o.now 1))]

/-- The store keeps `_id` unique: no identifier is held by two documents. -/
def UniqueIds (docs : List Doc) : Prop :=
  ∀ i : ObjectId, docs.countP (Doc.hasId i) ≤ 1

/-- A path without its trailing slashes: the segments up to the last one that
is not empty. -/
def stripSlashes : List String → List String
  | [] => []
  | s :: rest =>
    match stripSlashes rest with
    | [] => if s == "" then [] else [s]
    | r => s :: r

/-- A path of the form `/todos/:id`: the segment `todos` and one more segment. -/
def isTodosId : List String → Bool
  | [s, _] => s == "todos"
  | _ => false

/-- The route table of the interface description, read on the path without its
trailing slashes: the handler a method and path are listed for, `none` when the
combination is not listed. -/
def tableEntry (method : String) (path : List String) : Option Handler :=
  if method = "OPTIONS" then some .preflight
  else if method = "GET" ∧ stripSlashes path = [] then some .health
  else if method = "GET" ∧ stripSlashes path = ["todos"] then some .listTodos
  else if method = "GET" ∧ isTodosId (stripSlashes path) then some .getTodo
  else if method = "POST" ∧ stripSlashes path = ["todos"] then some .createTodo
  else if method = "PUT" ∧ isTodosId (stripSlashes path) then some .updateTodo
  else if method = "DELETE" ∧ isTodosId (stripSlashes path) then some .deleteTodo
  else none

/-- What the exported `fetch` makes of the outcome of the handler the router
picked: its response, or the 500 response of the top-level guard. -/
def respond (outcome : Except String Response × World) : Option Response × World :=
  match outcome with
  | (.ok r, w) => (some r, w)
  | (.error msg, w) =>
    (some (json (.obj [("success", .bool false), ("error", .str msg)]) 500 corsHeaders), w)

/-- The driver calls a run added to the trace. -/
def newEvents (before after : World) : List Event :=
  after.log.drop before.log.length

/-! ## Concrete data for the examples -/

/-- An identifier class for the examples: an identifier is 24 hexadecimal
digits, read without regard to case. -/
def hexApi : ObjectIdApi :=
  { isValid := fun s => s.data.length == 24 &&
      s.data.all (fun c => c.isDigit || ('a' ≤ c && c ≤ 'f') || ('A' ≤ c && c ≤ 'F')),
    ofString := fun s => ⟨String.mk (s.data.map Char.toLower)⟩ }

/-- An environment without faults whose clock reads `t`, `t + 1`, ... -/
def calm (t : Nat) : Oracle :=
  { connect := none, find := none, findOne := none, insertOne := none,
    findOneAndUpdate := none, deleteOne := none,
    insertedId := ⟨"65f0c0ffee65f0c0ffee0001"⟩, now := fun k => t + k }

/-- An environment in which connecting to the store is refused. -/
def refusing : Oracle :=
  { connect := some "connect ECONNREFUSED", find := none, findOne := none, insertOne := none,
    findOneAndUpdate := none, deleteOne := none,
    insertedId := ⟨"65f0c0ffee65f0c0ffee0001"⟩, now := fun k => k }

/-- The empty store after a refused connection. -/
def refusedWorld : World :=
  { cached := false, docs := [], log := [.connectToDatabase false (some "connect ECONNREFUSED")] }

/-- The stored record `{title: "A", description: "B", completed: false}`. -/
def recordAB : Doc :=
  [("_id", .oid ⟨"65f0c0ffee65f0c0ffee0001"⟩), ("title", .str "A"), ("description", .str "B"),
   ("completed", .bool false), ("createdAt", .date 1000), ("updatedAt", .date 1000)]

/-- The identifier of `recordAB`, as a path segment. -/
def idAB : String := "65F0C0FFEE65F0C0FFEE0001"

/-- The update body `{completed: true}`. -/
def bodyCompleted : Val := .obj [("completed", .bool true)]

/-- The create body `{title: "A"}`. -/
def bodyTitleA : Val := .obj [("title", .str "A")]

/-- A store holding `recordAB` only, connection already cached. -/
def worldAB : World := { cached := true, docs := [recordAB], log := [] }

/-- An empty store, no connection yet. -/
def emptyWorld : World := { cached := false, docs := [], log := [] }

/-! ## Properties -/

/-! ### Documents and `$set` -/

theorem lookup_cons_ite (k key : String) (v : Val) (rest : Doc) :
    List.lookup key ((k, v) :: rest) = if key = k then some v else List.lookup key rest := by
  by_cases h : key = k
  · subst h; simp
  · have h1 : (key == k) = false := by simpa using h
    simp [List.lookup, h, h1]

theorem lookup_set (d : Doc) (k : String) (v : Val) (key : String) :
    (Doc.set d k v).lookup key = if key = k then some v else d.lookup key := by
  induction d with
  | nil => simp [Doc.set, lookup_cons_ite]
  | cons kv rest ih =>
    obtain ⟨k0, v0⟩ := kv
    by_cases h0 : k0 = k
    · subst h0
      simp only [Doc.set, beq_self_eq_true, if_true, lookup_cons_ite]
      by_cases h : key = k0 <;> simp [h]
    · have hne : (k0 == k) = false := by simpa using h0
      have hset : Doc.set ((k0, v0) :: rest) k v = (k0, v0) :: Doc.set rest k v := by
        simp [Doc.set, hne]
      rw [hset, lookup_cons_ite, lookup_cons_ite, ih]
      by_cases h : key = k
      · subst h
        have : ¬ key = k0 := fun e => h0 e.symm
        simp [this]
      · simp [h]

theorem lookup_applySet (fields d : Doc) (key : String) :
    (d.applySet fields).lookup key =
      match fields.reverse.lookup key with
      | some v => some v
      | none => d.lookup key := by
  induction fields generalizing d with
  | nil => simp [Doc.applySet]
  | cons kv rest ih =>
    obtain ⟨k0, v0⟩ := kv
    have hstep : Doc.applySet d ((k0, v0) :: rest) = Doc.applySet (Doc.set d k0 v0) rest := rfl
    rw [hstep, ih, List.reverse_cons, List.lookup_append, lookup_set]
    cases hr : List.lookup key rest.reverse with
    | some v => simp
    | none =>
      simp only [Option.none_or, lookup_cons_ite, List.lookup_nil]
      by_cases h : key = k0 <;> simp [h]

/-- What `$set` with the update handler's fields leaves in each field. -/
theorem lookup_update (body : Val) (now : Nat) (d : Doc) (key : String) :
    (d.applySet (updateFieldsOf body now)).lookup key =
      if key = "updatedAt" then some (.date now)
      else if key = "completed" then (body.field "completed").or (d.lookup key)
      else if key = "description" then (body.field "description").or (d.lookup key)
      else if key = "title" then (body.field "title").or (d.lookup key)
      else d.lookup key := by
  rw [lookup_applySet]
  unfold updateFieldsOf
  cases body.field "title" <;> cases body.field "description" <;>
    cases body.field "completed" <;>
    simp [setIfDefined, Doc.set, lookup_cons_ite] <;>
    split_ifs <;> simp_all

theorem hasId_update (i : ObjectId) (body : Val) (now : Nat) (d : Doc) :
    Doc.hasId i (d.applySet (updateFieldsOf body now)) = Doc.hasId i d := by
  unfold Doc.hasId
  rw [lookup_update]
  simp

/-! ### Lists of documents -/

theorem find_updateFirst (p : Doc → Bool) (f : Doc → Doc) (hp : ∀ d, p (f d) = p d)
    (l : List Doc) : (updateFirst p f l).find? p = (l.find? p).map f := by
  induction l with
  | nil => simp [updateFirst]
  | cons d ds ih =>
    by_cases h : p d = true
    · simp [updateFirst, h, List.find?_cons, hp]
    · have h0 : p d = false := by simpa using h
      simp [updateFirst, h0, List.find?_cons, ih]

theorem updateFirst_of_find_none (p : Doc → Bool) (f : Doc → Doc) (l : List Doc)
    (h : l.find? p = none) : updateFirst p f l = l := by
  induction l with
  | nil => simp [updateFirst]
  | cons d ds ih =>
    by_cases hd : p d = true
    · simp [List.find?_cons, hd] at h
    · have h0 : p d = false := by simpa using hd
      simp only [List.find?_cons, h0] at h
      simp [updateFirst, h0, ih h]

theorem updateFirst_of_find_some (p : Doc → Bool) (f : Doc → Doc) (l : List Doc) (old : Doc)
    (h : l.find? p = some old) : updateFirst p f l = updateFirst p (fun _ => f old) l := by
  induction l with
  | nil => simp [updateFirst]
  | cons d ds ih =>
    by_cases hd : p d = true
    · simp only [List.find?_cons, hd, Option.some.injEq] at h
      subst h
      simp [updateFirst, hd]
    · have h0 : p d = false := by simpa using hd
      simp only [List.find?_cons, h0] at h
      simp [updateFirst, h0, ih h]

/-! ### Runs of the update handler -/

theorem prop_of_ne_null (body : Val) (key : String) (h : body ≠ .null) :
    body.prop key = .ok (body.field key) := by
  cases body <;> simp [Val.prop, Val.field] at h ⊢

/-- The update handler on a well-formed identifier and a parsed body that is
not `null`, when neither the connection nor the store faults. -/
theorem updateTodo_run (api : ObjectIdApi) (o : Oracle) (id : String) (body : Val) (w : World)
    (hv : api.isValid id = true) (hb : body ≠ .null)
    (hc : w.cached = true ∨ o.connect = none) (hf : o.findOneAndUpdate = none) :
    updateTodo api o id (.ok body) w =
      (.ok (match w.docs.find? (Doc.hasId (api.ofString id)) with
          | none => json (.obj [("success", .bool false), ("error", .str "Todo not found")])
              404 corsHeaders
          | some d => json (.obj [("success", .bool true),
              ("data", .obj (d.applySet (updateFieldsOf body (o.now 0))))]) 200 corsHeaders),
        { cached := true,
          docs := updateFirst (Doc.hasId (api.ofString id))
            (fun d => d.applySet (updateFieldsOf body (o.now 0))) w.docs,
          log := w.log ++ [.connectToDatabase w.cached none,
            .findOneAndUpdate (api.ofString id) (updateFieldsOf body (o.now 0)) none] }) := by
  have hp := fun key => prop_of_ne_null body key hb
  rcases hc with hc | hc
  · cases hfind : w.docs.find? (Doc.hasId (api.ofString id)) <;>
      simp [updateTodo, M.tryCatch, bind, M.bind, pure, M.pure, M.ofExcept, hv, hp,
        connectToDatabase, Collection.findOneAndUpdate, hc, hf, emit, updateFieldsOf, hfind]
  · cases hcached : w.cached <;>
    cases hfind : w.docs.find? (Doc.hasId (api.ofString id)) <;>
      simp [updateTodo, M.tryCatch, bind, M.bind, pure, M.pure, M.ofExcept, hv, hp,
        connectToDatabase, Collection.findOneAndUpdate, hc, hf, emit, updateFieldsOf, hfind,
        hcached]

/-- An update answered 200 had a well-formed identifier, a parsed body that is
not `null`, and met no fault. -/
theorem updateTodo_success_inv (api : ObjectIdApi) (o : Oracle) (id : String)
    (body : Except String Val) (w : World) (r : Response) (w' : World)
    (hrun : updateTodo api o id body w = (.ok r, w')) (hs : r.status = 200) :
    api.isValid id = true ∧ (∃ b, body = .ok b ∧ b ≠ .null) ∧
      (w.cached = true ∨ o.connect = none) ∧ o.findOneAndUpdate = none := by
  cases hv : api.isValid id with
  | false =>
    simp [updateTodo, M.tryCatch, hv, pure, M.pure] at hrun
    obtain ⟨rfl, -⟩ := hrun
    simp [json] at hs
  | true =>
    cases body with
    | error e =>
      simp [updateTodo, M.tryCatch, hv, pure, M.pure, bind, M.bind, M.ofExcept] at hrun
      obtain ⟨rfl, -⟩ := hrun
      simp [json] at hs
    | ok b =>
      by_cases hc : w.cached = true ∨ o.connect = none
      · by_cases hb : b = .null
        · subst hb
          rcases hc with hc | hc
          · simp [updateTodo, M.tryCatch, hv, pure, M.pure, bind, M.bind, M.ofExcept,
              connectToDatabase, hc, Val.prop] at hrun
            obtain ⟨rfl, -⟩ := hrun
            simp [json] at hs
          · cases hcached : w.cached <;>
            · simp [updateTodo, M.tryCatch, hv, pure, M.pure, bind, M.bind, M.ofExcept,
                connectToDatabase, hc, hcached, Val.prop] at hrun
              obtain ⟨rfl, -⟩ := hrun
              simp [json] at hs
        · cases hf : o.findOneAndUpdate with
          | none => exact ⟨rfl, ⟨b, rfl, hb⟩, hc, rfl⟩
          | some msg =>
            have hp := fun key => prop_of_ne_null b key hb
            rcases hc with hc | hc
            · simp [updateTodo, M.tryCatch, hv, pure, M.pure, bind, M.bind, M.ofExcept,
                connectToDatabase, hc, hp, Collection.findOneAndUpdate, hf] at hrun
              obtain ⟨rfl, -⟩ := hrun
              simp [json] at hs
            · cases hcached : w.cached <;>
              · simp [updateTodo, M.tryCatch, hv, pure, M.pure, bind, M.bind, M.ofExcept,
                  connectToDatabase, hc, hcached, hp, Collection.findOneAndUpdate, hf] at hrun
                obtain ⟨rfl, -⟩ := hrun
                simp [json] at hs
      · have hc1 : w.cached = false := by
          cases h : w.cached
          · rfl
          · exact absurd (Or.inl h) hc
        obtain ⟨msg, hmsg⟩ : ∃ msg, o.connect = some msg := by
          cases h : o.connect with
          | none => exact absurd (Or.inr h) hc
          | some msg => exact ⟨msg, rfl⟩
        simp [updateTodo, M.tryCatch, hv, pure, M.pure, bind, M.bind, M.ofExcept,
          connectToDatabase, hc1, hmsg] at hrun
        obtain ⟨rfl, -⟩ := hrun
        simp [json] at hs

/-! ### Update: frame -/

/-- C2. A successful update (answered 200) returns and stores, in place of the
record with the given identifier, a record in which each of `title`,
`description` and `completed` that the body explicitly carries has the body's
value (whatever it is, falsy values included), `updatedAt` is the clock reading,
and every other field, in particular each omitted one, `_id` and `createdAt`,
is as before; all other records are untouched. And on the record
`{title: "A", description: "B", completed: false}` the body `{completed: true}`
yields `{title: "A", description: "B", completed: true}`. -/
theorem update_changes_only_present_fields :
    (∀ (api : ObjectIdApi) (o : Oracle) (id : String) (body : Val) (w : World)
        (r : Response) (w' : World),
      updateTodo api o id (.ok body) w = (.ok r, w') → r.status = 200 →
      ∃ old new : Doc,
        w.docs.find? (Doc.hasId (api.ofString id)) = some old ∧
        r.body = some (.obj [("success", .bool true), ("data", .obj new)]) ∧
        w'.docs = updateFirst (Doc.hasId (api.ofString id)) (fun _ => new) w.docs ∧
        (∀ key ∈ ["title", "description", "completed"], ∀ v,
          body.field key = some v → new.lookup key = some v) ∧
        new.lookup "updatedAt" = some (.date (o.now 0)) ∧
        (∀ key ∈ ["title", "description", "completed"],
          body.field key = none → new.lookup key = old.lookup key) ∧
        (∀ key, key ∉ ["title", "description", "completed", "updatedAt"] →
          new.lookup key = old.lookup key) ∧
        new.lookup "_id" = old.lookup "_id" ∧
        new.lookup "createdAt" = old.lookup "createdAt") ∧
    updateTodo hexApi (calm 2000) idAB (.ok bodyCompleted) worldAB =
      (.ok (json (.obj [("success", .bool true), ("data", .obj
          [("_id", .oid ⟨"65f0c0ffee65f0c0ffee0001"⟩), ("title", .str "A"),
           ("description", .str "B"), ("completed", .bool true),
           ("createdAt", .date 1000), ("updatedAt", .date 2000)])]) 200 corsHeaders),
        { cached := true,
          docs := [[("_id", .oid ⟨"65f0c0ffee65f0c0ffee0001"⟩), ("title", .str "A"),
            ("description", .str "B"), ("completed", .bool true),
            ("createdAt", .date 1000), ("updatedAt", .date 2000)]],
          log := [.connectToDatabase true none,
            .findOneAndUpdate ⟨"65f0c0ffee65f0c0ffee0001"⟩
              [("completed", .bool true), ("updatedAt", .date 2000)] none] }) := by
  refine ⟨?_, rfl⟩
  intro api o id body w r w' hrun hs
  obtain ⟨hv, ⟨b, hb, hnull⟩, hc, hf⟩ := updateTodo_success_inv api o id _ w r w' hrun hs
  cases hb
  rw [updateTodo_run api o id body w hv hnull hc hf] at hrun
  cases hfind : w.docs.find? (Doc.hasId (api.ofString id)) with
  | none =>
    rw [hfind] at hrun
    simp only [Prod.mk.injEq, Except.ok.injEq] at hrun
    obtain ⟨rfl, -⟩ := hrun
    simp [json] at hs
  | some old =>
    rw [hfind] at hrun
    simp only [Prod.mk.injEq, Except.ok.injEq] at hrun
    obtain ⟨rfl, rfl⟩ := hrun
    refine ⟨old, old.applySet (updateFieldsOf body (o.now 0)), rfl, rfl, ?_, ?_, ?_, ?_, ?_, ?_, ?_⟩
    · exact updateFirst_of_find_some _ _ _ old hfind
    · intro key hkey v hval
      rw [lookup_update]
      simp only [List.mem_cons, List.mem_singleton, List.not_mem_nil, or_false] at hkey
      rcases hkey with rfl | rfl | rfl <;> simp [hval]
    · rw [lookup_update]; simp
    · intro key hkey hval
      rw [lookup_update]
      simp only [List.mem_cons, List.mem_singleton, List.not_mem_nil, or_false] at hkey
      rcases hkey with rfl | rfl | rfl <;> simp [hval]
    · intro key hkey
      rw [lookup_update]
      simp only [List.mem_cons, List.mem_singleton, List.not_mem_nil, or_false, not_or] at hkey
      simp [hkey.1, hkey.2.1, hkey.2.2.1, hkey.2.2.2]
    · rw [lookup_update]; simp
    · rw [lookup_update]; simp

/-- The general statement of C2 at the example: the update of `recordAB` by
`{completed: true}` is answered 200, so the frame property applies to it. -/
theorem update_changes_only_present_fields_witness :
    ∃ old new : Doc,
      worldAB.docs.find? (Doc.hasId (hexApi.ofString idAB)) = some old ∧
      new.lookup "completed" = some (.bool true) ∧
      new.lookup "title" = old.lookup "title" ∧
      new.lookup "description" = old.lookup "description" ∧
      new.lookup "createdAt" = old.lookup "createdAt" := by
  obtain ⟨old, new, h1, -, -, h4, -, h6, -, -, h9⟩ :=
    update_changes_only_present_fields.1 hexApi (calm 2000) idAB bodyCompleted worldAB _ _
      update_changes_only_present_fields.2 rfl
  exact ⟨old, new, h1, h4 "completed" (by simp) (.bool true) rfl,
    h6 "title" (by simp) rfl, h6 "description" (by simp) rfl, h9⟩

/-! ### Runs of the other handlers -/

/-- The get handler on a well-formed identifier when nothing faults. -/
theorem getTodo_run (api : ObjectIdApi) (o : Oracle) (id : String) (w : World)
    (hv : api.isValid id = true) (hc : w.cached = true ∨ o.connect = none)
    (hf : o.findOne = none) :
    getTodo api o id w =
      (.ok (match w.docs.find? (Doc.hasId (api.ofString id)) with
          | none => json (.obj [("success", .bool false), ("error", .str "Todo not found")])
              404 corsHeaders
          | some d => json (.obj [("success", .bool true), ("data", .obj d)]) 200 corsHeaders),
        { cached := true, docs := w.docs,
          log := w.log ++ [.connectToDatabase w.cached none,
            .findOne (api.ofString id) none] }) := by
  rcases hc with hc | hc
  · cases hfind : w.docs.find? (Doc.hasId (api.ofString id)) <;>
      simp [getTodo, M.tryCatch, bind, M.bind, pure, M.pure, connectToDatabase,
        Collection.findOne, hv, hc, hf, emit, hfind]
  · cases hcached : w.cached <;>
    cases hfind : w.docs.find? (Doc.hasId (api.ofString id)) <;>
      simp [getTodo, M.tryCatch, bind, M.bind, pure, M.pure, connectToDatabase,
        Collection.findOne, hv, hc, hf, emit, hfind, hcached]

/-- The delete handler on a well-formed identifier when nothing faults. -/
theorem deleteTodo_run (api : ObjectIdApi) (o : Oracle) (id : String) (w : World)
    (hv : api.isValid id = true) (hc : w.cached = true ∨ o.connect = none)
    (hf : o.deleteOne = none) :
    deleteTodo api o id w =
      (.ok (if w.docs.any (Doc.hasId (api.ofString id)) then
            json (.obj [("success", .bool true),
              ("message", .str "Todo deleted successfully")]) 200 corsHeaders
          else json (.obj [("success", .bool false), ("error", .str "Todo not found")])
              404 corsHeaders),
        { cached := true, docs := w.docs.eraseP (Doc.hasId (api.ofString id)),
          log := w.log ++ [.connectToDatabase w.cached none,
            .deleteOne (api.ofString id) none] }) := by
  rcases hc with hc | hc
  · cases hany : w.docs.any (Doc.hasId (api.ofString id)) <;>
      simp [deleteTodo, M.tryCatch, bind, M.bind, pure, M.pure, connectToDatabase,
        Collection.deleteOne, hv, hc, hf, emit, hany]
  · cases hcached : w.cached <;>
    cases hany : w.docs.any (Doc.hasId (api.ofString id)) <;>
      simp [deleteTodo, M.tryCatch, bind, M.bind, pure, M.pure, connectToDatabase,
        Collection.deleteOne, hv, hc, hf, emit, hany, hcached]

theorem hasId_cons_id (i : ObjectId) (d : Doc) :
    Doc.hasId i (("_id", Val.oid i) :: d) = true := by
  simp [Doc.hasId]

theorem find_append_fresh (p : Doc → Bool) (l : List Doc) (d : Doc)
    (hl : l.any p = false) (hd : p d = true) : (l ++ [d]).find? p = some d := by
  have hnone : l.find? p = none := by
    rw [List.find?_eq_none]
    intro x hx hpx
    have : l.any p = true := List.any_eq_true.mpr ⟨x, hx, hpx⟩
    rw [hl] at this
    exact Bool.noConfusion this
  simp [List.find?_append, hnone, List.find?_cons, hd]

/-- The create handler on a body with a truthy title when nothing faults. -/
theorem createTodo_run (o : Oracle) (body : Val) (w : World)
    (ht : truthy (body.field "title") = true)
    (hc : w.cached = true ∨ o.connect = none) (hi : o.insertOne = none)
    (hfresh : w.docs.any (Doc.hasId o.insertedId) = false) (hf : o.findOne = none) :
    createTodo o (.ok body) w =
      (.ok (json (.obj [("success", .bool true), ("data", .obj (createdRecord o body))])
          201 corsHeaders),
        { cached := true, docs := w.docs ++ [createdRecord o body],
          log := w.log ++ [.connectToDatabase w.cached none,
            .insertOne (createdRecord o body).tail none,
            .findOne o.insertedId none] }) := by
  have hb : body ≠ .null := by
    intro h
    subst h
    simp [Val.field, truthy] at ht
  have hp := fun key => prop_of_ne_null body key hb
  have hfind := find_append_fresh (Doc.hasId o.insertedId) w.docs (createdRecord o body) hfresh
    (hasId_cons_id _ _)
  have hfresh2 : ¬ ∃ x ∈ w.docs, Doc.hasId o.insertedId x = true := by
    rintro ⟨x, hx, h⟩
    have : w.docs.any (Doc.hasId o.insertedId) = true := List.any_eq_true.mpr ⟨x, hx, h⟩
    rw [hfresh] at this
    exact Bool.noConfusion this
  unfold createdRecord at hfind
  rcases hc with hc | hc
  · simp [createTodo, M.tryCatch, bind, M.bind, pure, M.pure, M.ofExcept, hp, ht,
      connectToDatabase, Collection.insertOne, Collection.findOne, hc, hi, hf, emit, hfresh2,
      createdRecord, hfind, docOrNull]
  · cases hcached : w.cached <;>
      simp [createTodo, M.tryCatch, bind, M.bind, pure, M.pure, M.ofExcept, hp, ht,
        connectToDatabase, Collection.insertOne, Collection.findOne, hc, hi, hf, emit, hfresh2,
        createdRecord, hfind, docOrNull, hcached]

/-! ### Malformed identifiers -/

/-- C1. When the identifier fails `ObjectId.isValid`, the get, update and
delete handlers each answer 400 with `{success: false, error: "Invalid ID
format"}`, whatever the request body, the store and the environment, and leave
the world as it was: no connection is acquired, no driver call is recorded, the
store is unchanged. -/
theorem invalid_id_rejected (api : ObjectIdApi) (o : Oracle) (id : String)
    (body : Except String Val) (w : World) (h : api.isValid id = false) :
    getTodo api o id w =
        (.ok (json (.obj [("success", .bool false), ("error", .str "Invalid ID format")])
          400 corsHeaders), w) ∧
      updateTodo api o id body w =
        (.ok (json (.obj [("success", .bool false), ("error", .str "Invalid ID format")])
          400 corsHeaders), w) ∧
      deleteTodo api o id w =
        (.ok (json (.obj [("success", .bool false), ("error", .str "Invalid ID format")])
          400 corsHeaders), w) := by
  refine ⟨?_, ?_, ?_⟩
  · simp [getTodo, M.tryCatch, h, pure, M.pure]
  · simp [updateTodo, M.tryCatch, h, pure, M.pure]
  · simp [deleteTodo, M.tryCatch, h, pure, M.pure]

/-- C1 at the identifier `42`, which is not 24 hexadecimal digits. -/
theorem invalid_id_rejected_witness :
    hexApi.isValid "42" = false ∧
      (getTodo hexApi (calm 0) "42" worldAB =
          (.ok (json (.obj [("success", .bool false), ("error", .str "Invalid ID format")])
            400 corsHeaders), worldAB) ∧
        updateTodo hexApi (calm 0) "42" (.ok bodyCompleted) worldAB =
          (.ok (json (.obj [("success", .bool false), ("error", .str "Invalid ID format")])
            400 corsHeaders), worldAB) ∧
        deleteTodo hexApi (calm 0) "42" worldAB =
          (.ok (json (.obj [("success", .bool false), ("error", .str "Invalid ID format")])
            400 corsHeaders), worldAB)) :=
  ⟨rfl, invalid_id_rejected hexApi (calm 0) "42" (.ok bodyCompleted) worldAB rfl⟩

/-! ### Create -/

/-- C3, as the claim states it, fails: with a clock that advances between the
two `new Date()` calls, creating `{title: "A"}` in an empty store is answered
201 with a record whose `createdAt` and `updatedAt` differ. -/
theorem create_timestamps_differ :
    ∃ record : Doc,
      (createTodo (calm 5000) (.ok bodyTitleA) emptyWorld).1 =
        .ok (json (.obj [("success", .bool true), ("data", .obj record)]) 201 corsHeaders) ∧
      record.lookup "createdAt" = some (.date 5000) ∧
      record.lookup "updatedAt" = some (.date 5001) ∧
      record.lookup "createdAt" ≠ record.lookup "updatedAt" := by
  refine ⟨createdRecord (calm 5000) bodyTitleA, rfl, rfl, rfl, ?_⟩
  intro h
  simp [createdRecord, calm, List.lookup] at h

/-- C3, amended. For every body whose title is truthy (in particular a
non-empty string), when neither the connection nor the store faults, the create
handler answers 201 with `{success: true, data: record}` where `record` is the
stored document: the store's identifier, the body's title, `description` and
`completed` defaulted, `createdAt` the first clock reading and `updatedAt` the
second. So `createdAt` and `updatedAt` are equal exactly when the two readings
coincide, and `createdAt ≤ updatedAt` when the clock does not run backwards. -/
theorem create_returns_stored_record (o : Oracle) (body : Val) (w : World)
    (ht : truthy (body.field "title") = true)
    (hc : w.cached = true ∨ o.connect = none) (hi : o.insertOne = none)
    (hfresh : w.docs.any (Doc.hasId o.insertedId) = false) (hf : o.findOne = none) :
    ∃ (record : Doc) (w' : World),
      createTodo o (.ok body) w =
        (.ok (json (.obj [("success", .bool true), ("data", .obj record)]) 201 corsHeaders),
          w') ∧
      w'.docs = w.docs ++ [record] ∧
      record.lookup "title" = body.field "title" ∧
      record.lookup "createdAt" = some (.date (o.now 0)) ∧
      record.lookup "updatedAt" = some (.date (o.now 1)) ∧
      (record.lookup "createdAt" = record.lookup "updatedAt" ↔ o.now 0 = o.now 1) ∧
      (o.now 0 ≤ o.now 1 →
        ∃ c u, record.lookup "createdAt" = some (.date c) ∧
          record.lookup "updatedAt" = some (.date u) ∧ c ≤ u) := by
  refine ⟨createdRecord o body, _, createTodo_run o body w ht hc hi hfresh hf, rfl, ?_,
    rfl, rfl, ?_, fun hle => ⟨o.now 0, o.now 1, rfl, rfl, hle⟩⟩
  · cases hfield : body.field "title" with
    | none => simp [hfield, truthy] at ht
    | some t => simp [createdRecord, hfield, stored, List.lookup]
  · simp [createdRecord, List.lookup]

/-- C3 amended, at `{title: "A"}` and an empty store. -/
theorem create_returns_stored_record_witness :
    ∃ (record : Doc) (w' : World),
      createTodo (calm 5000) (.ok bodyTitleA) emptyWorld =
        (.ok (json (.obj [("success", .bool true), ("data", .obj record)]) 201 corsHeaders),
          w') ∧
      w'.docs = emptyWorld.docs ++ [record] ∧
      record.lookup "title" = bodyTitleA.field "title" ∧
      record.lookup "createdAt" = some (.date ((calm 5000).now 0)) ∧
      record.lookup "updatedAt" = some (.date ((calm 5000).now 1)) ∧
      (record.lookup "createdAt" = record.lookup "updatedAt" ↔
        (calm 5000).now 0 = (calm 5000).now 1) ∧
      ((calm 5000).now 0 ≤ (calm 5000).now 1 →
        ∃ c u, record.lookup "createdAt" = some (.date c) ∧
          record.lookup "updatedAt" = some (.date u) ∧ c ≤ u) :=
  create_returns_stored_record (calm 5000) bodyTitleA emptyWorld rfl (Or.inr rfl) rfl rfl rfl

/-- C4, as the claim states it, fails: the parsed body `null` carries no title,
yet the create handler answers 500, not 400. -/
theorem create_null_body_is_500 :
    truthy (Val.field .null "title") = false ∧
      createTodo (calm 0) (.ok .null) emptyWorld =
        (.ok (json (.obj [("success", .bool false),
          ("error", .str "Cannot read properties of null (reading 'title')")])
          500 corsHeaders), emptyWorld) :=
  ⟨rfl, rfl⟩

/-- C4, amended. For every parsed body other than `null` whose title is missing
or falsy (the empty string in particular), the create handler answers 400 with
`{success: false, error: "Title is required"}`; and for every parsed body whose
title is missing or falsy, `null` included, the world is left as it was:
nothing is inserted and no driver call is made. -/
theorem create_without_title_rejected (o : Oracle) (body : Val) (w : World)
    (ht : truthy (body.field "title") = false) :
    (body ≠ .null →
      createTodo o (.ok body) w =
        (.ok (json (.obj [("success", .bool false), ("error", .str "Title is required")])
          400 corsHeaders), w)) ∧
    (createTodo o (.ok body) w).2 = w := by
  by_cases hb : body = .null
  · subst hb
    exact ⟨fun h => absurd rfl h, rfl⟩
  · have hp := prop_of_ne_null body "title" hb
    have hrun : createTodo o (.ok body) w =
        (.ok (json (.obj [("success", .bool false), ("error", .str "Title is required")])
          400 corsHeaders), w) := by
      simp [createTodo, M.tryCatch, bind, M.bind, pure, M.pure, M.ofExcept, hp, ht]
    exact ⟨fun _ => hrun, by rw [hrun]⟩

/-- C4 amended, at the body `{title: ""}`. -/
theorem create_without_title_rejected_witness :
    truthy (Val.field (.obj [("title", .str "")]) "title") = false ∧
      createTodo (calm 0) (.ok (.obj [("title", .str "")])) worldAB =
        (.ok (json (.obj [("success", .bool false), ("error", .str "Title is required")])
          400 corsHeaders), worldAB) ∧
      (createTodo (calm 0) (.ok (.obj [("title", .str "")])) worldAB).2 = worldAB :=
  ⟨rfl,
    (create_without_title_rejected (calm 0) (.obj [("title", .str "")]) worldAB rfl).1
      (fun h => Val.noConfusion h),
    (create_without_title_rejected (calm 0) (.obj [("title", .str "")]) worldAB rfl).2⟩

/-! ### Identifiers that match no record -/

theorem find_none_of_any_false (p : Doc → Bool) (l : List Doc) (h : l.any p = false) :
    l.find? p = none := by
  rw [List.find?_eq_none]
  intro x hx hpx
  have : l.any p = true := List.any_eq_true.mpr ⟨x, hx, hpx⟩
  rw [h] at this
  exact Bool.noConfusion this

theorem eraseP_of_any_false (p : Doc → Bool) (l : List Doc) (h : l.any p = false) :
    l.eraseP p = l := by
  apply List.eraseP_of_forall_not
  intro x hx hpx
  have : l.any p = true := List.any_eq_true.mpr ⟨x, hx, hpx⟩
  rw [h] at this
  exact Bool.noConfusion this

/-- C5, as the claim states it, fails for update: with a well-formed identifier
that matches no record and no store fault, an update whose body does not parse
is answered 500, not 404. -/
theorem update_unparsed_body_is_500 :
    hexApi.isValid idAB = true ∧
      emptyWorld.docs.any (Doc.hasId (hexApi.ofString idAB)) = false ∧
      updateTodo hexApi (calm 0) idAB (.error "Unexpected end of JSON input") emptyWorld =
        (.ok (json (.obj [("success", .bool false),
          ("error", .str "Unexpected end of JSON input")]) 500 corsHeaders), emptyWorld) :=
  ⟨rfl, rfl, rfl⟩

/-- C5, amended. For every well-formed identifier that matches no record, when
neither the connection nor the store faults, the get and delete handlers answer
404 with `{success: false, error: "Todo not found"}`, and so does the update
handler when the request body parses to a value other than `null`; in each case
the store's contents are unchanged. -/
theorem absent_id_not_found (api : ObjectIdApi) (o : Oracle) (id : String) (body : Val)
    (w : World) (hv : api.isValid id = true)
    (habsent : w.docs.any (Doc.hasId (api.ofString id)) = false)
    (hc : w.cached = true ∨ o.connect = none) :
    (o.findOne = none →
      ∃ w', getTodo api o id w =
          (.ok (json (.obj [("success", .bool false), ("error", .str "Todo not found")])
            404 corsHeaders), w') ∧ w'.docs = w.docs) ∧
    (o.findOneAndUpdate = none → body ≠ .null →
      ∃ w', updateTodo api o id (.ok body) w =
          (.ok (json (.obj [("success", .bool false), ("error", .str "Todo not found")])
            404 corsHeaders), w') ∧ w'.docs = w.docs) ∧
    (o.deleteOne = none →
      ∃ w', deleteTodo api o id w =
          (.ok (json (.obj [("success", .bool false), ("error", .str "Todo not found")])
            404 corsHeaders), w') ∧ w'.docs = w.docs) := by
  have hfind := find_none_of_any_false _ _ habsent
  refine ⟨fun hf => ?_, fun hf hb => ?_, fun hf => ?_⟩
  · rw [getTodo_run api o id w hv hc hf, hfind]
    exact ⟨_, rfl, rfl⟩
  · rw [updateTodo_run api o id body w hv hb hc hf, hfind]
    exact ⟨_, rfl, updateFirst_of_find_none _ _ _ hfind⟩
  · rw [deleteTodo_run api o id w hv hc hf, habsent]
    exact ⟨_, rfl, eraseP_of_any_false _ _ habsent⟩

/-- C5 amended, at a well-formed identifier other than the one `worldAB` holds. -/
theorem absent_id_not_found_witness :
    (∃ w', getTodo hexApi (calm 0) "0123456789abcdef01234567" worldAB =
        (.ok (json (.obj [("success", .bool false), ("error", .str "Todo not found")])
          404 corsHeaders), w') ∧ w'.docs = worldAB.docs) ∧
    (∃ w', updateTodo hexApi (calm 0) "0123456789abcdef01234567" (.ok bodyCompleted) worldAB =
        (.ok (json (.obj [("success", .bool false), ("error", .str "Todo not found")])
          404 corsHeaders), w') ∧ w'.docs = worldAB.docs) ∧
    (∃ w', deleteTodo hexApi (calm 0) "0123456789abcdef01234567" worldAB =
        (.ok (json (.obj [("success", .bool false), ("error", .str "Todo not found")])
          404 corsHeaders), w') ∧ w'.docs = worldAB.docs) := by
  have h := absent_id_not_found hexApi (calm 0) "0123456789abcdef01234567" bodyCompleted
    worldAB rfl rfl (Or.inl rfl)
  exact ⟨h.1 rfl, h.2.1 rfl (fun e => Val.noConfusion e), h.2.2 rfl⟩

/-! ### Delete -/

theorem countP_eraseP_self (p : Doc → Bool) (l : List Doc) (h : l.any p = true) :
    (l.eraseP p).countP p + 1 = l.countP p := by
  induction l with
  | nil => simp at h
  | cons d ds ih =>
    by_cases hd : p d = true
    · simp [List.eraseP_cons, hd, List.countP_cons]
    · have h0 : p d = false := by simpa using hd
      have hds : ds.any p = true := by simpa [List.any_cons, h0] using h
      simp [List.eraseP_cons, h0, List.countP_cons, ih hds]

theorem find_eraseP_of_unique (p : Doc → Bool) (l : List Doc) (h : l.any p = true)
    (hu : l.countP p ≤ 1) : (l.eraseP p).find? p = none := by
  have h1 := countP_eraseP_self p l h
  have h0 : (l.eraseP p).countP p = 0 := by omega
  rw [List.find?_eq_none]
  intro x hx hpx
  have hpos : 0 < (l.eraseP p).countP p := List.countP_pos_iff.mpr ⟨x, hx, hpx⟩
  omega

/-- C6. For every store with unique identifiers and every well-formed
identifier of a record in it, when neither the connection nor the store faults,
the delete handler answers 200 with `{success: true, message: "Todo deleted
successfully"}`; the store afterwards is the store before with that one record
taken out, so it holds exactly one record fewer and every other record is
untouched; and a get on the same identifier afterwards answers 404. -/
theorem delete_removes_exactly_one (api : ObjectIdApi) (o o2 : Oracle) (id : String)
    (w : World) (hv : api.isValid id = true)
    (hpresent : w.docs.any (Doc.hasId (api.ofString id)) = true)
    (hunique : UniqueIds w.docs)
    (hc : w.cached = true ∨ o.connect = none) (hd : o.deleteOne = none)
    (hf2 : o2.findOne = none) :
    ∃ w' w'',
      deleteTodo api o id w =
        (.ok (json (.obj [("success", .bool true),
          ("message", .str "Todo deleted successfully")]) 200 corsHeaders), w') ∧
      w'.docs.length + 1 = w.docs.length ∧
      (∃ before d after, w.docs = before ++ d :: after ∧
        Doc.hasId (api.ofString id) d = true ∧ w'.docs = before ++ after) ∧
      getTodo api o2 id w' =
        (.ok (json (.obj [("success", .bool false), ("error", .str "Todo not found")])
          404 corsHeaders), w'') := by
  obtain ⟨d, hmem, hpd⟩ := List.any_eq_true.mp hpresent
  have hrun := deleteTodo_run api o id w hv hc hd
  rw [hpresent] at hrun
  have hdocs : (deleteTodo api o id w).2.docs = w.docs.eraseP (Doc.hasId (api.ofString id)) := by
    rw [hrun]
  have hcached : (deleteTodo api o id w).2.cached = true := by rw [hrun]
  refine ⟨(deleteTodo api o id w).2, (getTodo api o2 id (deleteTodo api o id w).2).2,
    ?_, ?_, ?_, ?_⟩
  · rw [hrun]
    rfl
  · rw [hdocs, List.length_eraseP_of_mem hmem hpd]
    have : 0 < w.docs.length := List.length_pos_of_mem hmem
    omega
  · obtain ⟨a, l1, l2, hnot, hpa, hsplit, herase⟩ := List.exists_of_eraseP hmem hpd
    exact ⟨l1, a, l2, hsplit, hpa, by rw [hdocs, herase]⟩
  · rw [getTodo_run api o2 id _ hv (Or.inl hcached) hf2, hdocs,
      find_eraseP_of_unique _ _ hpresent (hunique _)]

/-- C6 at the store holding `recordAB` only. -/
theorem delete_removes_exactly_one_witness :
    ∃ w' w'',
      deleteTodo hexApi (calm 0) idAB worldAB =
        (.ok (json (.obj [("success", .bool true),
          ("message", .str "Todo deleted successfully")]) 200 corsHeaders), w') ∧
      w'.docs.length + 1 = worldAB.docs.length ∧
      (∃ before d after, worldAB.docs = before ++ d :: after ∧
        Doc.hasId (hexApi.ofString idAB) d = true ∧ w'.docs = before ++ after) ∧
      getTodo hexApi (calm 9) idAB w' =
        (.ok (json (.obj [("success", .bool false), ("error", .str "Todo not found")])
          404 corsHeaders), w'') :=
  delete_removes_exactly_one hexApi (calm 0) (calm 9) idAB worldAB rfl rfl
    (by
      intro i
      show List.countP (Doc.hasId i) [recordAB] ≤ 1
      simp only [List.countP_cons, List.countP_nil]
      split <;> omega)
    (Or.inl rfl) rfl rfl

/-! ### Update: repeating it -/

theorem or_or_self (a b : Option Val) : a.or (a.or b) = a.or b := by
  cases a <;> rfl

theorem lookup_update_twice (body : Val) (t1 t2 : Nat) (d : Doc) (key : String)
    (hkey : key ≠ "updatedAt") :
    ((d.applySet (updateFieldsOf body t1)).applySet (updateFieldsOf body t2)).lookup key =
      (d.applySet (updateFieldsOf body t1)).lookup key := by
  rw [lookup_update, lookup_update]
  simp only [if_neg hkey]
  split_ifs <;> first | rfl | exact or_or_self _ _

/-- C9, as the claim states it, fails: when the clock reads 3000 at the first
update and 2000 at the second, both updates of `recordAB` by `{completed: true}`
are answered 200 and the second `updatedAt` is less than the first. -/
theorem update_twice_clock_backwards :
    ∃ (once twice : Doc) (w1 w2 : World),
      updateTodo hexApi (calm 3000) idAB (.ok bodyCompleted) worldAB =
        (.ok (json (.obj [("success", .bool true), ("data", .obj once)]) 200 corsHeaders),
          w1) ∧
      updateTodo hexApi (calm 2000) idAB (.ok bodyCompleted) w1 =
        (.ok (json (.obj [("success", .bool true), ("data", .obj twice)]) 200 corsHeaders),
          w2) ∧
      once.lookup "updatedAt" = some (.date 3000) ∧
      twice.lookup "updatedAt" = some (.date 2000) ∧
      ¬ 3000 ≤ 2000 :=
  ⟨recordAB.applySet (updateFieldsOf bodyCompleted 3000),
    (recordAB.applySet (updateFieldsOf bodyCompleted 3000)).applySet
      (updateFieldsOf bodyCompleted 2000),
    (updateTodo hexApi (calm 3000) idAB (.ok bodyCompleted) worldAB).2,
    (updateTodo hexApi (calm 2000) idAB (.ok bodyCompleted)
      (updateTodo hexApi (calm 3000) idAB (.ok bodyCompleted) worldAB).2).2,
    rfl, rfl, rfl, rfl, by decide⟩

/-- C9, amended. When an update is answered 200 and the same update (same
identifier, same body) is applied again without a store fault, the second is
answered 200 too, and the record after the second agrees with the record after
the first in every field other than `updatedAt`. Each `updatedAt` is the clock
reading of its update: the two are equal exactly when the two readings are, and
the second is greater than or equal to the first when the clock does not run
backwards between the two updates. -/
theorem update_twice_same_but_updatedAt (api : ObjectIdApi) (o1 o2 : Oracle) (id : String)
    (body : Except String Val) (w w1 : World) (r1 : Response)
    (hfirst : updateTodo api o1 id body w = (.ok r1, w1)) (hok : r1.status = 200)
    (hsecond : o2.findOneAndUpdate = none) :
    ∃ (once twice : Doc) (w2 : World),
      r1.body = some (.obj [("success", .bool true), ("data", .obj once)]) ∧
      w1.docs.find? (Doc.hasId (api.ofString id)) = some once ∧
      updateTodo api o2 id body w1 =
        (.ok (json (.obj [("success", .bool true), ("data", .obj twice)]) 200 corsHeaders),
          w2) ∧
      w2.docs.find? (Doc.hasId (api.ofString id)) = some twice ∧
      w2.docs = updateFirst (Doc.hasId (api.ofString id)) (fun _ => twice) w1.docs ∧
      (∀ key, key ≠ "updatedAt" → twice.lookup key = once.lookup key) ∧
      once.lookup "updatedAt" = some (.date (o1.now 0)) ∧
      twice.lookup "updatedAt" = some (.date (o2.now 0)) ∧
      (twice.lookup "updatedAt" = once.lookup "updatedAt" ↔ o2.now 0 = o1.now 0) ∧
      (o1.now 0 ≤ o2.now 0 →
        ∃ t1 t2, once.lookup "updatedAt" = some (.date t1) ∧
          twice.lookup "updatedAt" = some (.date t2) ∧ t1 ≤ t2) := by
  obtain ⟨hv, ⟨b, hb, hnull⟩, hc, hf⟩ := updateTodo_success_inv api o1 id body w r1 w1 hfirst hok
  subst hb
  rw [updateTodo_run api o1 id b w hv hnull hc hf] at hfirst
  cases hfind : w.docs.find? (Doc.hasId (api.ofString id)) with
  | none =>
    rw [hfind] at hfirst
    simp only [Prod.mk.injEq, Except.ok.injEq] at hfirst
    obtain ⟨rfl, -⟩ := hfirst
    simp [json] at hok
  | some old =>
    rw [hfind] at hfirst
    simp only [Prod.mk.injEq, Except.ok.injEq] at hfirst
    obtain ⟨rfl, rfl⟩ := hfirst
    have hfind1 : (updateFirst (Doc.hasId (api.ofString id))
        (fun d => d.applySet (updateFieldsOf b (o1.now 0))) w.docs).find?
          (Doc.hasId (api.ofString id)) =
        some (old.applySet (updateFieldsOf b (o1.now 0))) := by
      rw [find_updateFirst _ _ (fun d => hasId_update _ b _ d), hfind]
      rfl
    have hrun2 := updateTodo_run api o2 id b
      { cached := true,
        docs := updateFirst (Doc.hasId (api.ofString id))
          (fun d => d.applySet (updateFieldsOf b (o1.now 0))) w.docs,
        log := w.log ++ [.connectToDatabase w.cached none,
          .findOneAndUpdate (api.ofString id) (updateFieldsOf b (o1.now 0)) none] }
      hv hnull (Or.inl rfl) hsecond
    simp only [hfind1] at hrun2
    have h1 : (old.applySet (updateFieldsOf b (o1.now 0))).lookup "updatedAt" =
        some (.date (o1.now 0)) := by
      rw [lookup_update]; simp
    have h2 : ((old.applySet (updateFieldsOf b (o1.now 0))).applySet
        (updateFieldsOf b (o2.now 0))).lookup "updatedAt" = some (.date (o2.now 0)) := by
      rw [lookup_update]; simp
    refine ⟨old.applySet (updateFieldsOf b (o1.now 0)),
      (old.applySet (updateFieldsOf b (o1.now 0))).applySet (updateFieldsOf b (o2.now 0)),
      _, rfl, hfind1, hrun2, ?_, ?_, ?_, h1, h2, ?_, ?_⟩
    · simp only []
      rw [find_updateFirst _ _ (fun d => hasId_update _ b _ d), hfind1]
      rfl
    · exact updateFirst_of_find_some _ _ _ _ hfind1
    · intro key hkey
      exact lookup_update_twice b _ _ old key hkey
    · rw [h1, h2]
      simp
    · intro hle
      exact ⟨o1.now 0, o2.now 0, h1, h2, hle⟩

/-- C9 amended, at `recordAB`, updated twice by `{completed: true}`, at clock
readings 2000 and 3000. -/
theorem update_twice_same_but_updatedAt_witness :
    ∃ (once twice : Doc) (w2 : World),
      (updateTodo hexApi (calm 2000) idAB (.ok bodyCompleted) worldAB).2.docs.find?
        (Doc.hasId (hexApi.ofString idAB)) = some once ∧
      updateTodo hexApi (calm 3000) idAB (.ok bodyCompleted)
          (updateTodo hexApi (calm 2000) idAB (.ok bodyCompleted) worldAB).2 =
        (.ok (json (.obj [("success", .bool true), ("data", .obj twice)]) 200 corsHeaders),
          w2) ∧
      (∀ key, key ≠ "updatedAt" → twice.lookup key = once.lookup key) ∧
      once.lookup "updatedAt" = some (.date 2000) ∧
      twice.lookup "updatedAt" = some (.date 3000) ∧
      ∃ t1 t2, once.lookup "updatedAt" = some (.date t1) ∧
        twice.lookup "updatedAt" = some (.date t2) ∧ t1 ≤ t2 := by
  obtain ⟨once, twice, w2, -, hfind, hrun, -, -, hframe, h1, h2, -, hle⟩ :=
    update_twice_same_but_updatedAt hexApi (calm 2000) (calm 3000) idAB (.ok bodyCompleted)
      worldAB (updateTodo hexApi (calm 2000) idAB (.ok bodyCompleted) worldAB).2
      (json (.obj [("success", .bool true), ("data", .obj
        (recordAB.applySet (updateFieldsOf bodyCompleted 2000)))]) 200 corsHeaders)
      rfl rfl rfl
  exact ⟨once, twice, w2, hfind, hrun, hframe, h1, h2, hle (by decide)⟩

/-! ### Every handler answers, and answers a fault with 500 -/

theorem listTodos_faults (o : Oracle) (w : World) :
    ∃ b s w', listTodos o w = (.ok (json b s corsHeaders), w') ∧
      ∀ ev ∈ newEvents w w', ∀ m, ev.fault = some m →
        json b s corsHeaders =
          json (.obj [("success", .bool false), ("error", .str m)]) 500 corsHeaders := by
  cases hc : w.cached <;> cases hco : o.connect <;> cases hf : o.find <;>
    simp only [listTodos, M.tryCatch, bind, M.bind, pure, M.pure, connectToDatabase,
      Collection.find, emit, hc, hco, hf, if_true, if_false, Bool.false_eq_true,
      List.append_assoc] <;>
    refine ⟨_, _, _, rfl, ?_⟩ <;>
    simp [newEvents, Event.fault, ← hc]

theorem getTodo_faults (api : ObjectIdApi) (o : Oracle) (id : String) (w : World) :
    ∃ b s w', getTodo api o id w = (.ok (json b s corsHeaders), w') ∧
      ∀ ev ∈ newEvents w w', ∀ m, ev.fault = some m →
        json b s corsHeaders =
          json (.obj [("success", .bool false), ("error", .str m)]) 500 corsHeaders := by
  cases hv : api.isValid id <;> cases hc : w.cached <;> cases hco : o.connect <;>
    cases hf : o.findOne <;> cases hfind : w.docs.find? (Doc.hasId (api.ofString id)) <;>
    simp only [getTodo, M.tryCatch, bind, M.bind, pure, M.pure, connectToDatabase,
      Collection.findOne, emit, hv, hc, hco, hf, hfind, Bool.not_true, Bool.not_false, if_true,
      if_false, Bool.false_eq_true, List.append_assoc] <;>
    refine ⟨_, _, _, rfl, ?_⟩ <;>
    simp [newEvents, Event.fault, ← hc]

theorem deleteTodo_faults (api : ObjectIdApi) (o : Oracle) (id : String) (w : World) :
    ∃ b s w', deleteTodo api o id w = (.ok (json b s corsHeaders), w') ∧
      ∀ ev ∈ newEvents w w', ∀ m, ev.fault = some m →
        json b s corsHeaders =
          json (.obj [("success", .bool false), ("error", .str m)]) 500 corsHeaders := by
  cases hv : api.isValid id <;> cases hc : w.cached <;> cases hco : o.connect <;>
    cases hf : o.deleteOne <;> cases hany : w.docs.any (Doc.hasId (api.ofString id)) <;>
    simp only [deleteTodo, M.tryCatch, bind, M.bind, pure, M.pure, connectToDatabase,
      Collection.deleteOne, emit, hv, hc, hco, hf, hany, Bool.not_true, Bool.not_false, if_true,
      if_false, Bool.false_eq_true, List.append_assoc, beq_self_eq_true, Nat.reduceBEq] <;>
    refine ⟨_, _, _, rfl, ?_⟩ <;>
    simp [newEvents, Event.fault, ← hc]

theorem updateTodo_faults (api : ObjectIdApi) (o : Oracle) (id : String)
    (body : Except String Val) (w : World) :
    ∃ b s w', updateTodo api o id body w = (.ok (json b s corsHeaders), w') ∧
      ∀ ev ∈ newEvents w w', ∀ m, ev.fault = some m →
        json b s corsHeaders =
          json (.obj [("success", .bool false), ("error", .str m)]) 500 corsHeaders := by
  cases body with
  | error e =>
    cases hv : api.isValid id <;>
      simp only [updateTodo, M.tryCatch, bind, M.bind, pure, M.pure, M.ofExcept, hv,
        Bool.not_true, Bool.not_false, if_true, if_false, Bool.false_eq_true] <;>
      refine ⟨_, _, _, rfl, ?_⟩ <;>
      simp [newEvents]
  | ok v =>
    by_cases hnull : v = .null
    · subst hnull
      cases hv : api.isValid id <;> cases hc : w.cached <;> cases hco : o.connect <;>
        simp only [updateTodo, M.tryCatch, bind, M.bind, pure, M.pure, M.ofExcept,
          connectToDatabase, emit, hv, hc, hco, Val.prop, Bool.not_true, Bool.not_false, if_true,
          if_false, Bool.false_eq_true, List.append_assoc] <;>
        refine ⟨_, _, _, rfl, ?_⟩ <;>
        simp [newEvents, Event.fault, ← hc]
    · have hp := fun key => prop_of_ne_null v key hnull
      cases hv : api.isValid id <;> cases hc : w.cached <;> cases hco : o.connect <;>
        cases hf : o.findOneAndUpdate <;>
        cases hfind : w.docs.find? (Doc.hasId (api.ofString id)) <;>
        simp only [updateTodo, M.tryCatch, bind, M.bind, pure, M.pure, M.ofExcept,
          connectToDatabase, Collection.findOneAndUpdate, emit, hv, hc, hco, hf, hfind, hp,
          Option.map, Bool.not_true, Bool.not_false, if_true, if_false, Bool.false_eq_true,
          List.append_assoc] <;>
        refine ⟨_, _, _, rfl, ?_⟩ <;>
        simp [newEvents, Event.fault, ← hc]

theorem createTodo_faults (o : Oracle) (body : Except String Val) (w : World) :
    ∃ b s w', createTodo o body w = (.ok (json b s corsHeaders), w') ∧
      ∀ ev ∈ newEvents w w', ∀ m, ev.fault = some m →
        json b s corsHeaders =
          json (.obj [("success", .bool false), ("error", .str m)]) 500 corsHeaders := by
  cases body with
  | error e =>
    simp only [createTodo, M.tryCatch, bind, M.bind, pure, M.pure, M.ofExcept]
    refine ⟨_, _, _, rfl, ?_⟩
    simp [newEvents]
  | ok v =>
    by_cases hnull : v = .null
    · subst hnull
      simp only [createTodo, M.tryCatch, bind, M.bind, pure, M.pure, M.ofExcept, Val.prop]
      refine ⟨_, _, _, rfl, ?_⟩
      simp [newEvents]
    · have hp := fun key => prop_of_ne_null v key hnull
      cases ht : truthy (v.field "title") <;> cases hc : w.cached <;> cases hco : o.connect <;>
        cases hi : o.insertOne <;> cases hany : w.docs.any (Doc.hasId o.insertedId) <;>
        cases hf : o.findOne <;>
        simp only [createTodo, M.tryCatch, bind, M.bind, pure, M.pure, M.ofExcept,
          connectToDatabase, Collection.insertOne, Collection.findOne, emit, ht, hc, hco, hi, hf,
          hany, hp, Bool.not_true, Bool.not_false, if_true, if_false, Bool.false_eq_true,
          List.append_assoc] <;>
        refine ⟨_, _, _, rfl, ?_⟩ <;>
        simp [newEvents, Event.fault, ← hc]

/-! ### Routing -/

theorem fetch_of_firstMatch (api : ObjectIdApi) (o : Oracle) (req : Request) (w : World)
    (h : Handler) (params : List (String × String))
    (hm : firstMatch routes req = some (h, params)) :
    fetch api o req w = respond (runHandler api o params req h w) := by
  unfold fetch Router.fetch
  rw [hm]
  simp only [bind, M.bind, pure, M.pure, respond]
  rcases hrun : runHandler api o params req h w with ⟨res, w1⟩
  cases res <;> rfl

theorem stripSlashes_eq_nil (l : List String) :
    stripSlashes l = [] ↔ l.all (fun s => s == "") = true := by
  induction l with
  | nil => simp [stripSlashes]
  | cons s rest ih =>
    cases hr : stripSlashes rest with
    | nil =>
      have hall := ih.mp hr
      by_cases hs : s = ""
      · subst hs; simp [stripSlashes, hr, hall]
      · simp [stripSlashes, hr, hs]
    | cons a r =>
      have hall : ¬ rest.all (fun s => s == "") = true := fun h => by
        have := ih.mpr h
        rw [hr] at this
        exact List.noConfusion this
      simp only [stripSlashes, hr, List.all_cons, Bool.and_eq_true]
      constructor
      · intro h; exact List.noConfusion h
      · intro h; exact absurd h.2 hall

theorem matchSegs_root (path : List String) :
    matchSegs [] path = if stripSlashes path = [] then some [] else none := by
  by_cases h : stripSlashes path = []
  · have hall := (stripSlashes_eq_nil path).mp h
    cases path <;> simp [matchSegs, h, hall]
  · have hall : ¬ path.all (fun s => s == "") = true := fun hh =>
      h ((stripSlashes_eq_nil path).mpr hh)
    cases path <;> simp_all [matchSegs]

theorem beq_todos (p : String) : ("todos" == p) = decide (p = "todos") := by
  by_cases h : p = "todos"
  · subst h; simp
  · have : ("todos" == p) = false := by simpa using fun e : "todos" = p => h e.symm
    simp [h, this]

theorem stripSlashes_cons_nil (s : String) (rest : List String)
    (hr : stripSlashes rest = []) :
    stripSlashes (s :: rest) = if s = "" then [] else [s] := by
  by_cases hs : s = "" <;> simp [stripSlashes, hr, hs]

theorem stripSlashes_cons_cons (s a : String) (rest r : List String)
    (hr : stripSlashes rest = a :: r) : stripSlashes (s :: rest) = s :: a :: r := by
  simp [stripSlashes, hr]

theorem matchSegs_todos (path : List String) :
    matchSegs [.lit "todos"] path = if stripSlashes path = ["todos"] then some [] else none := by
  cases path with
  | nil => simp [matchSegs, stripSlashes]
  | cons p ps =>
    have hstep : matchSegs [.lit "todos"] (p :: ps) =
        if ("todos" == p) = true then matchSegs [] ps else none := by
      simp only [matchSegs]
    rw [hstep, matchSegs_root, beq_todos]
    cases hr : stripSlashes ps with
    | nil =>
      rw [stripSlashes_cons_nil p ps hr]
      by_cases hp : p = "todos"
      · subst hp; simp
      · by_cases he : p = "" <;> simp [hp, he]
    | cons a r =>
      rw [stripSlashes_cons_cons p a ps r hr]
      by_cases hp : p = "todos" <;> simp [hp]

theorem matchSegs_id (path : List String) :
    matchSegs [.param "id"] path =
      match stripSlashes path with
      | [id] => some [("id", id)]
      | _ => none := by
  cases path with
  | nil => simp [matchSegs, stripSlashes]
  | cons q qs =>
    have hstep : matchSegs [.param "id"] (q :: qs) =
        if (q == "") = true then none
        else (matchSegs [] qs).map (fun bound => ("id", q) :: bound) := by
      simp only [matchSegs]
    rw [hstep, matchSegs_root]
    cases hr : stripSlashes qs with
    | nil =>
      rw [stripSlashes_cons_nil q qs hr]
      by_cases hq : q = "" <;> simp [hq]
    | cons a r =>
      rw [stripSlashes_cons_cons q a qs r hr]
      by_cases hq : q = "" <;> simp [hq]

theorem matchSegs_todos_id (path : List String) :
    matchSegs [.lit "todos", .param "id"] path =
      match stripSlashes path with
      | [s, id] => if s = "todos" then some [("id", id)] else none
      | _ => none := by
  cases path with
  | nil => simp [matchSegs, stripSlashes]
  | cons p ps =>
    have hstep : matchSegs [.lit "todos", .param "id"] (p :: ps) =
        if ("todos" == p) = true then matchSegs [.param "id"] ps else none := by
      simp only [matchSegs]
    rw [hstep, matchSegs_id, beq_todos]
    match hr : stripSlashes ps with
    | [] =>
      rw [stripSlashes_cons_nil p ps hr]
      by_cases hp : p = "todos" <;> by_cases he : p = "" <;> simp [hp, he]
    | [id] =>
      rw [stripSlashes_cons_cons p id ps [] hr]
      by_cases hp : p = "todos" <;> simp [hp]
    | a :: b :: r =>
      rw [stripSlashes_cons_cons p a ps (b :: r) hr]
      by_cases hp : p = "todos" <;> simp [hp]

/-- The registration the router picks for each method and path. -/
theorem firstMatch_routes (req : Request) :
    firstMatch routes req =
      if req.method = "OPTIONS" then some (.preflight, [])
      else if req.method = "GET" ∧ stripSlashes req.path = [] then some (.health, [])
      else if req.method = "GET" ∧ stripSlashes req.path = ["todos"] then some (.listTodos, [])
      else if req.method = "POST" ∧ stripSlashes req.path = ["todos"] then
        some (.createTodo, [])
      else match stripSlashes req.path with
        | [s, id] =>
          if s = "todos" ∧ req.method = "GET" then some (.getTodo, [("id", id)])
          else if s = "todos" ∧ req.method = "PUT" then some (.updateTodo, [("id", id)])
          else if s = "todos" ∧ req.method = "DELETE" then some (.deleteTodo, [("id", id)])
          else some (.notFound, [])
        | _ => some (.notFound, []) := by
  obtain ⟨m, path, body⟩ := req
  simp only [firstMatch, routes, List.findSome?, Route.matches, Pattern.matches, matchSegs_root,
    matchSegs_todos, matchSegs_todos_id]
  generalize stripSlashes path = sp
  by_cases hO : m = "OPTIONS"
  · subst hO; simp
  by_cases hG : m = "GET"
  · subst hG
    match sp with
    | [] => simp
    | [a] => by_cases ha : a = "todos" <;> simp [ha]
    | [a, b] => by_cases ha : a = "todos" <;> simp [ha]
    | a :: b :: c :: rest => simp
  by_cases hP : m = "POST"
  · subst hP
    match sp with
    | [] => simp
    | [a] => by_cases ha : a = "todos" <;> simp [ha]
    | [a, b] => by_cases ha : a = "todos" <;> simp [ha]
    | a :: b :: c :: rest => simp
  by_cases hU : m = "PUT"
  · subst hU
    match sp with
    | [] => simp
    | [a] => by_cases ha : a = "todos" <;> simp [ha]
    | [a, b] => by_cases ha : a = "todos" <;> simp [ha]
    | a :: b :: c :: rest => simp
  by_cases hD : m = "DELETE"
  · subst hD
    match sp with
    | [] => simp
    | [a] => by_cases ha : a = "todos" <;> simp [ha]
    | [a, b] => by_cases ha : a = "todos" <;> simp [ha]
    | a :: b :: c :: rest => simp
  have hO2 : ("OPTIONS" == m) = false := by simpa using fun e : "OPTIONS" = m => hO e.symm
  have hG2 : ("GET" == m) = false := by simpa using fun e : "GET" = m => hG e.symm
  have hP2 : ("POST" == m) = false := by simpa using fun e : "POST" = m => hP e.symm
  have hU2 : ("PUT" == m) = false := by simpa using fun e : "PUT" = m => hU e.symm
  have hD2 : ("DELETE" == m) = false := by simpa using fun e : "DELETE" = m => hD e.symm
  match sp with
  | [] => simp [hO, hG, hP, hU, hD, hO2, hG2, hP2, hU2, hD2]
  | [a] => simp [hO, hG, hP, hU, hD, hO2, hG2, hP2, hU2, hD2]
  | [a, b] => simp [hO, hG, hP, hU, hD, hO2, hG2, hP2, hU2, hD2]
  | a :: b :: c :: rest => simp [hO, hG, hP, hU, hD, hO2, hG2, hP2, hU2, hD2]

theorem tableEntry_ne_notFound (m : String) (path : List String) (h : Handler)
    (ht : tableEntry m path = some h) : h ≠ .notFound := by
  unfold tableEntry at ht
  split_ifs at ht <;> simp at ht <;> subst ht <;> simp

/-- The router picks the handler the route table lists, and the 404 responder
when the table lists none; a `/todos/:id` route binds `id` to the segment after
`todos`. -/
theorem firstMatch_table (req : Request) :
    ∃ params, firstMatch routes req =
        some ((tableEntry req.method req.path).getD .notFound, params) ∧
      (tableEntry req.method req.path = none → params = []) ∧
      (∀ id, req.method ≠ "OPTIONS" → stripSlashes req.path = ["todos", id] →
        tableEntry req.method req.path ≠ none → params = [("id", id)]) := by
  obtain ⟨m, path, body⟩ := req
  rw [firstMatch_routes]
  simp only [tableEntry]
  generalize stripSlashes path = sp
  by_cases hO : m = "OPTIONS"
  · subst hO; simp
  by_cases hG : m = "GET"
  · subst hG
    match sp with
    | [] => simp [isTodosId]
    | [a] => by_cases ha : a = "todos" <;> simp [ha, isTodosId]
    | [a, b] => by_cases ha : a = "todos" <;> simp [ha, isTodosId]
    | a :: b :: c :: rest => simp [isTodosId]
  by_cases hP : m = "POST"
  · subst hP
    match sp with
    | [] => simp [isTodosId]
    | [a] => by_cases ha : a = "todos" <;> simp [ha, isTodosId]
    | [a, b] => by_cases ha : a = "todos" <;> simp [ha, isTodosId]
    | a :: b :: c :: rest => simp [isTodosId]
  by_cases hU : m = "PUT"
  · subst hU
    match sp with
    | [] => simp [isTodosId]
    | [a] => by_cases ha : a = "todos" <;> simp [ha, isTodosId]
    | [a, b] => by_cases ha : a = "todos" <;> simp [ha, isTodosId]
    | a :: b :: c :: rest => simp [isTodosId]
  by_cases hD : m = "DELETE"
  · subst hD
    match sp with
    | [] => simp [isTodosId]
    | [a] => by_cases ha : a = "todos" <;> simp [ha, isTodosId]
    | [a, b] => by_cases ha : a = "todos" <;> simp [ha, isTodosId]
    | a :: b :: c :: rest => simp [isTodosId]
  match sp with
  | [] => simp [hO, hG, hP, hU, hD]
  | [a] => simp [hO, hG, hP, hU, hD]
  | [a, b] => simp [hO, hG, hP, hU, hD]
  | a :: b :: c :: rest => simp [hO, hG, hP, hU, hD]

/-! ### No handler of the table answers like the 404 responder -/

theorem json_ne_notFound (b : Val) (s : Nat)
    (h : s = 404 → b = .obj [("success", .bool false), ("error", .str "Todo not found")]) :
    json b s corsHeaders ≠ notFound := by
  intro heq
  simp only [json, notFound, Response.mk.injEq, Option.some.injEq] at heq
  have hb := h heq.1
  rw [hb] at heq
  simp at heq

theorem listTodos_shape (o : Oracle) (w : World) :
    ∃ b s w', listTodos o w = (.ok (json b s corsHeaders), w') ∧
      (s = 404 → b = .obj [("success", .bool false), ("error", .str "Todo not found")]) := by
  cases hc : w.cached <;> cases hco : o.connect <;> cases hf : o.find <;>
    simp only [listTodos, M.tryCatch, bind, M.bind, pure, M.pure, connectToDatabase,
      Collection.find, emit, hc, hco, hf, if_true, if_false, Bool.false_eq_true,
      List.append_assoc] <;>
    refine ⟨_, _, _, rfl, ?_⟩ <;>
    simp

theorem getTodo_shape (api : ObjectIdApi) (o : Oracle) (id : String) (w : World) :
    ∃ b s w', getTodo api o id w = (.ok (json b s corsHeaders), w') ∧
      (s = 404 → b = .obj [("success", .bool false), ("error", .str "Todo not found")]) := by
  cases hv : api.isValid id <;> cases hc : w.cached <;> cases hco : o.connect <;>
    cases hf : o.findOne <;> cases hfind : w.docs.find? (Doc.hasId (api.ofString id)) <;>
    simp only [getTodo, M.tryCatch, bind, M.bind, pure, M.pure, connectToDatabase,
      Collection.findOne, emit, hv, hc, hco, hf, hfind, Bool.not_true, Bool.not_false, if_true,
      if_false, Bool.false_eq_true, List.append_assoc] <;>
    refine ⟨_, _, _, rfl, ?_⟩ <;>
    simp

theorem deleteTodo_shape (api : ObjectIdApi) (o : Oracle) (id : String) (w : World) :
    ∃ b s w', deleteTodo api o id w = (.ok (json b s corsHeaders), w') ∧
      (s = 404 → b = .obj [("success", .bool false), ("error", .str "Todo not found")]) := by
  cases hv : api.isValid id <;> cases hc : w.cached <;> cases hco : o.connect <;>
    cases hf : o.deleteOne <;> cases hany : w.docs.any (Doc.hasId (api.ofString id)) <;>
    simp only [deleteTodo, M.tryCatch, bind, M.bind, pure, M.pure, connectToDatabase,
      Collection.deleteOne, emit, hv, hc, hco, hf, hany, Bool.not_true, Bool.not_false, if_true,
      if_false, Bool.false_eq_true, List.append_assoc, beq_self_eq_true, Nat.reduceBEq] <;>
    refine ⟨_, _, _, rfl, ?_⟩ <;>
    simp

theorem updateTodo_shape (api : ObjectIdApi) (o : Oracle) (id : String)
    (body : Except String Val) (w : World) :
    ∃ b s w', updateTodo api o id body w = (.ok (json b s corsHeaders), w') ∧
      (s = 404 → b = .obj [("success", .bool false), ("error", .str "Todo not found")]) := by
  cases body with
  | error e =>
    cases hv : api.isValid id <;>
      simp only [updateTodo, M.tryCatch, bind, M.bind, pure, M.pure, M.ofExcept, hv,
        Bool.not_true, Bool.not_false, if_true, if_false, Bool.false_eq_true] <;>
      refine ⟨_, _, _, rfl, ?_⟩ <;>
      simp
  | ok v =>
    by_cases hnull : v = .null
    · subst hnull
      cases hv : api.isValid id <;> cases hc : w.cached <;> cases hco : o.connect <;>
        simp only [updateTodo, M.tryCatch, bind, M.bind, pure, M.pure, M.ofExcept,
          connectToDatabase, emit, hv, hc, hco, Val.prop, Bool.not_true, Bool.not_false, if_true,
          if_false, Bool.false_eq_true, List.append_assoc] <;>
        refine ⟨_, _, _, rfl, ?_⟩ <;>
        simp
    · have hp := fun key => prop_of_ne_null v key hnull
      cases hv : api.isValid id <;> cases hc : w.cached <;> cases hco : o.connect <;>
        cases hf : o.findOneAndUpdate <;>
        cases hfind : w.docs.find? (Doc.hasId (api.ofString id)) <;>
        simp only [updateTodo, M.tryCatch, bind, M.bind, pure, M.pure, M.ofExcept,
          connectToDatabase, Collection.findOneAndUpdate, emit, hv, hc, hco, hf, hfind, hp,
          Option.map, Bool.not_true, Bool.not_false, if_true, if_false, Bool.false_eq_true,
          List.append_assoc] <;>
        refine ⟨_, _, _, rfl, ?_⟩ <;>
        simp

theorem createTodo_shape (o : Oracle) (body : Except String Val) (w : World) :
    ∃ b s w', createTodo o body w = (.ok (json b s corsHeaders), w') ∧
      (s = 404 → b = .obj [("success", .bool false), ("error", .str "Todo not found")]) := by
  cases body with
  | error e =>
    simp only [createTodo, M.tryCatch, bind, M.bind, pure, M.pure, M.ofExcept]
    refine ⟨_, _, _, rfl, ?_⟩
    simp
  | ok v =>
    by_cases hnull : v = .null
    · subst hnull
      simp only [createTodo, M.tryCatch, bind, M.bind, pure, M.pure, M.ofExcept, Val.prop]
      refine ⟨_, _, _, rfl, ?_⟩
      simp
    · have hp := fun key => prop_of_ne_null v key hnull
      cases ht : truthy (v.field "title") <;> cases hc : w.cached <;> cases hco : o.connect <;>
        cases hi : o.insertOne <;> cases hany : w.docs.any (Doc.hasId o.insertedId) <;>
        cases hf : o.findOne <;>
        simp only [createTodo, M.tryCatch, bind, M.bind, pure, M.pure, M.ofExcept,
          connectToDatabase, Collection.insertOne, Collection.findOne, emit, ht, hc, hco, hi, hf,
          hany, hp, Bool.not_true, Bool.not_false, if_true, if_false, Bool.false_eq_true,
          List.append_assoc] <;>
        refine ⟨_, _, _, rfl, ?_⟩ <;>
        simp

/-- A handler other than the 404 responder never returns the 404 responder's
response. -/
theorem runHandler_ne_notFound (api : ObjectIdApi) (o : Oracle)
    (params : List (String × String)) (req : Request) (h : Handler) (w : World)
    (hh : h ≠ .notFound) (r : Response) (w' : World)
    (hrun : runHandler api o params req h w = (.ok r, w')) : r ≠ notFound := by
  have key : ∀ (m : M Response),
      (∃ b s w1, m w = (.ok (json b s corsHeaders), w1) ∧
        (s = 404 → b = .obj [("success", .bool false), ("error", .str "Todo not found")])) →
      m w = (.ok r, w') → r ≠ notFound := by
    rintro m ⟨b, s, w1, hm, hs⟩ hr
    rw [hm] at hr
    simp only [Prod.mk.injEq, Except.ok.injEq] at hr
    rw [← hr.1]
    exact json_ne_notFound b s hs
  cases h with
  | notFound => exact absurd rfl hh
  | preflight =>
    simp only [runHandler, pure, M.pure, Prod.mk.injEq, Except.ok.injEq] at hrun
    rw [← hrun.1]
    intro heq
    simp [preflight, notFound, json] at heq
  | health =>
    simp only [runHandler, pure, M.pure, Prod.mk.injEq, Except.ok.injEq] at hrun
    rw [← hrun.1]
    intro heq
    simp [health, notFound, json] at heq
  | listTodos => exact key _ (listTodos_shape o w) hrun
  | getTodo => exact key _ (getTodo_shape api o (paramId params) w) hrun
  | createTodo => exact key _ (createTodo_shape o req.body w) hrun
  | updateTodo => exact key _ (updateTodo_shape api o (paramId params) req.body w) hrun
  | deleteTodo => exact key _ (deleteTodo_shape api o (paramId params) w) hrun

/-! ### Responses of `fetch` -/

theorem newEvents_self (w : World) : newEvents w w = [] := by
  simp [newEvents]

/-- Every handler returns a response: the pre-flight response for the pre-flight
handler, a `json` response with the cross-origin headers for any other; and
when a driver call of the run faulted, the 500 response with the fault's
message. -/
theorem runHandler_answers (api : ObjectIdApi) (o : Oracle) (params : List (String × String))
    (req : Request) (h : Handler) (w : World) :
    ∃ r w', runHandler api o params req h w = (.ok r, w') ∧
      (h = .preflight → r = preflight) ∧
      (h ≠ .preflight → ∃ b s, r = json b s corsHeaders) ∧
      ∀ ev ∈ newEvents w w', ∀ m, ev.fault = some m →
        r = json (.obj [("success", .bool false), ("error", .str m)]) 500 corsHeaders := by
  cases h with
  | preflight =>
    exact ⟨preflight, w, rfl, fun _ => rfl, fun hne => absurd rfl hne, by simp [newEvents_self]⟩
  | health =>
    exact ⟨health, w, rfl, fun hh => Handler.noConfusion hh, fun _ => ⟨_, _, rfl⟩,
      by simp [newEvents_self]⟩
  | notFound =>
    exact ⟨notFound, w, rfl, fun hh => Handler.noConfusion hh, fun _ => ⟨_, _, rfl⟩,
      by simp [newEvents_self]⟩
  | listTodos =>
    obtain ⟨b, s, w', hrun, hfault⟩ := listTodos_faults o w
    exact ⟨_, w', hrun, fun hh => Handler.noConfusion hh, fun _ => ⟨b, s, rfl⟩, hfault⟩
  | getTodo =>
    obtain ⟨b, s, w', hrun, hfault⟩ := getTodo_faults api o (paramId params) w
    exact ⟨_, w', hrun, fun hh => Handler.noConfusion hh, fun _ => ⟨b, s, rfl⟩, hfault⟩
  | createTodo =>
    obtain ⟨b, s, w', hrun, hfault⟩ := createTodo_faults o req.body w
    exact ⟨_, w', hrun, fun hh => Handler.noConfusion hh, fun _ => ⟨b, s, rfl⟩, hfault⟩
  | updateTodo =>
    obtain ⟨b, s, w', hrun, hfault⟩ := updateTodo_faults api o (paramId params) req.body w
    exact ⟨_, w', hrun, fun hh => Handler.noConfusion hh, fun _ => ⟨b, s, rfl⟩, hfault⟩
  | deleteTodo =>
    obtain ⟨b, s, w', hrun, hfault⟩ := deleteTodo_faults api o (paramId params) w
    exact ⟨_, w', hrun, fun hh => Handler.noConfusion hh, fun _ => ⟨b, s, rfl⟩, hfault⟩

/-- The handler the router picks is the pre-flight handler exactly for the
method `OPTIONS`. -/
theorem firstMatch_preflight (req : Request) :
    ∃ h params, firstMatch routes req = some (h, params) ∧
      (h = .preflight ↔ req.method = "OPTIONS") := by
  obtain ⟨params, hm, -, -⟩ := firstMatch_table req
  refine ⟨_, params, hm, ?_⟩
  unfold tableEntry
  split_ifs <;> simp_all

/-- C8, as the claim states it, fails: the response to an `OPTIONS` request
carries no `Content-Type` header. -/
theorem preflight_has_no_content_type :
    ∃ r, (fetch hexApi (calm 0) ⟨"OPTIONS", ["todos"], .error "no body"⟩ emptyWorld).1 = some r ∧
      r.header "Content-Type" = none ∧ r.headers = corsHeaders ∧ r.body = none :=
  ⟨preflight, rfl, rfl, rfl, rfl⟩

/-- C8, amended. Every request gets a response from `fetch`, and every response
carries the three cross-origin headers `Access-Control-Allow-Origin: *`,
`Access-Control-Allow-Methods: GET, POST, PUT, DELETE, OPTIONS` and
`Access-Control-Allow-Headers: Content-Type`. Every response to a method other
than `OPTIONS` also carries the JSON content type, and so does the 500 response
of the top-level guard; the response to `OPTIONS` is the pre-flight response,
which has no body and no content type. -/
theorem every_response_has_cors_headers (api : ObjectIdApi) (o : Oracle) (req : Request)
    (w : World) :
    ∃ r, (fetch api o req w).1 = some r ∧
      r.header "Access-Control-Allow-Origin" = some "*" ∧
      r.header "Access-Control-Allow-Methods" = some "GET, POST, PUT, DELETE, OPTIONS" ∧
      r.header "Access-Control-Allow-Headers" = some "Content-Type" ∧
      (req.method ≠ "OPTIONS" → r.header "Content-Type" = some jsonContentType) ∧
      (req.method = "OPTIONS" → r = preflight ∧ r.header "Content-Type" = none) ∧
      (∀ msg, ∃ g, (respond (.error msg, w)).1 = some g ∧ g.status = 500 ∧
        g.header "Content-Type" = some jsonContentType ∧
        g.header "Access-Control-Allow-Origin" = some "*" ∧
        g.header "Access-Control-Allow-Methods" = some "GET, POST, PUT, DELETE, OPTIONS" ∧
        g.header "Access-Control-Allow-Headers" = some "Content-Type") := by
  obtain ⟨h, params, hm, hpre⟩ := firstMatch_preflight req
  obtain ⟨r, w', hrun, hp, hj, -⟩ := runHandler_answers api o params req h w
  have hfetch : fetch api o req w = (some r, w') := by
    rw [fetch_of_firstMatch api o req w h params hm, hrun]
    rfl
  refine ⟨r, by rw [hfetch], ?_⟩
  have hguard : ∀ msg, ∃ g, (respond (.error msg, w)).1 = some g ∧ g.status = 500 ∧
      g.header "Content-Type" = some jsonContentType ∧
      g.header "Access-Control-Allow-Origin" = some "*" ∧
      g.header "Access-Control-Allow-Methods" = some "GET, POST, PUT, DELETE, OPTIONS" ∧
      g.header "Access-Control-Allow-Headers" = some "Content-Type" :=
    fun msg => ⟨_, rfl, rfl, rfl, rfl, rfl, rfl⟩
  by_cases hO : req.method = "OPTIONS"
  · have hr := hp (hpre.mpr hO)
    subst hr
    exact ⟨rfl, rfl, rfl, fun hne => absurd hO hne, fun _ => ⟨rfl, rfl⟩, hguard⟩
  · obtain ⟨b, s, hr⟩ := hj (fun hh => hO (hpre.mp hh))
    subst hr
    exact ⟨rfl, rfl, rfl, fun _ => rfl, fun hh => absurd hh hO, hguard⟩

/-- C10. Whatever the request and whatever the connection, the body parser and
the store do, the router returns a response without throwing and `fetch` returns
that response; and whenever a driver call made during the request faulted
(acquiring the connection or operating on the store), the response is 500 with
`{success: false, error: <the fault's message>}`. -/
theorem no_fault_escapes (api : ObjectIdApi) (o : Oracle) (req : Request) (w : World) :
    ∃ r w', Router.fetch api o req w = (.ok (some r), w') ∧
      fetch api o req w = (some r, w') ∧
      ∀ ev ∈ newEvents w w', ∀ msg, ev.fault = some msg →
        r = json (.obj [("success", .bool false), ("error", .str msg)]) 500 corsHeaders := by
  obtain ⟨h, params, hm, -⟩ := firstMatch_preflight req
  obtain ⟨r, w', hrun, -, -, hfault⟩ := runHandler_answers api o params req h w
  refine ⟨r, w', ?_, ?_, hfault⟩
  · unfold Router.fetch
    rw [hm]
    simp only [bind, M.bind, pure, M.pure, hrun]
  · rw [fetch_of_firstMatch api o req w h params hm, hrun]
    rfl

/-- C10 at a list request whose connection is refused: the refusal is recorded
in the trace and the response is the 500 response with its message. -/
theorem no_fault_escapes_witness :
    ∃ r w', fetch hexApi refusing ⟨"GET", ["todos"], .error "no body"⟩ emptyWorld = (some r, w') ∧
      newEvents emptyWorld w' = [.connectToDatabase false (some "connect ECONNREFUSED")] ∧
      r = json (.obj [("success", .bool false), ("error", .str "connect ECONNREFUSED")])
        500 corsHeaders := by
  obtain ⟨r, w', -, hfetch, hfault⟩ :=
    no_fault_escapes hexApi refusing ⟨"GET", ["todos"], .error "no body"⟩ emptyWorld
  have hrun : fetch hexApi refusing ⟨"GET", ["todos"], .error "no body"⟩ emptyWorld =
      (some (json (.obj [("success", .bool false), ("error", .str "connect ECONNREFUSED")])
        500 corsHeaders), refusedWorld) := rfl
  have hw : w' = refusedWorld := by
    rw [hrun] at hfetch
    exact (Prod.mk.inj hfetch).2.symm
  subst hw
  have hev : newEvents emptyWorld refusedWorld =
      [.connectToDatabase false (some "connect ECONNREFUSED")] := rfl
  refine ⟨r, _, hfetch, hev, ?_⟩
  exact hfault (.connectToDatabase false (some "connect ECONNREFUSED"))
    (by rw [hev]; exact List.mem_singleton.mpr rfl) "connect ECONNREFUSED" rfl

/-- C8 amended, at a create request without a body: the 500 response carries
the cross-origin headers and the JSON content type. -/
theorem every_response_has_cors_headers_witness :
    ∃ r, (fetch hexApi (calm 0) ⟨"POST", ["todos"], .error "no body"⟩ worldAB).1 = some r ∧
      r.header "Access-Control-Allow-Origin" = some "*" ∧
      r.header "Access-Control-Allow-Methods" = some "GET, POST, PUT, DELETE, OPTIONS" ∧
      r.header "Access-Control-Allow-Headers" = some "Content-Type" ∧
      r.header "Content-Type" = some jsonContentType := by
  obtain ⟨r, hr, h1, h2, h3, h4, -, -⟩ :=
    every_response_has_cors_headers hexApi (calm 0) ⟨"POST", ["todos"], .error "no body"⟩ worldAB
  exact ⟨r, hr, h1, h2, h3, h4 (by decide)⟩

/-- C7. Paths are read without their trailing slashes, as the router does. A
method and path the route table lists are dispatched to the handler listed for
them: `fetch` returns what the pre-flight, health, list, get, create, update or
delete handler answers, get, update and delete receiving the segment after
`todos` as `id`; that handler is never the 404 responder and its response is
never the 404 responder's. A method and path the table does not list are
answered 404 with `{success: false, error: "Route not found"}`, the world
untouched. -/
theorem dispatch_follows_route_table (api : ObjectIdApi) (o : Oracle) (req : Request)
    (w : World) :
    (tableEntry req.method req.path = some .preflight →
      fetch api o req w = (some preflight, w)) ∧
    (tableEntry req.method req.path = some .health →
      fetch api o req w = (some health, w)) ∧
    (tableEntry req.method req.path = some .listTodos →
      fetch api o req w = respond (listTodos o w)) ∧
    (tableEntry req.method req.path = some .createTodo →
      fetch api o req w = respond (createTodo o req.body w)) ∧
    (∀ id, stripSlashes req.path = ["todos", id] →
      (tableEntry req.method req.path = some .getTodo →
        fetch api o req w = respond (getTodo api o id w)) ∧
      (tableEntry req.method req.path = some .updateTodo →
        fetch api o req w = respond (updateTodo api o id req.body w)) ∧
      (tableEntry req.method req.path = some .deleteTodo →
        fetch api o req w = respond (deleteTodo api o id w))) ∧
    (∀ h, tableEntry req.method req.path = some h →
      h ≠ .notFound ∧
      (∃ params, firstMatch routes req = some (h, params)) ∧
      (h = .getTodo ∨ h = .updateTodo ∨ h = .deleteTodo →
        ∃ id, stripSlashes req.path = ["todos", id]) ∧
      ∃ r w', fetch api o req w = (some r, w') ∧ r ≠ notFound) ∧
    (tableEntry req.method req.path = none →
      firstMatch routes req = some (.notFound, []) ∧
      fetch api o req w =
        (some (json (.obj [("success", .bool false), ("error", .str "Route not found")])
          404 corsHeaders), w)) := by
  obtain ⟨params, hm, hnone, hid⟩ := firstMatch_table req
  have hfetch : ∀ h, tableEntry req.method req.path = some h →
      fetch api o req w = respond (runHandler api o params req h w) := by
    intro h ht
    rw [ht] at hm
    exact fetch_of_firstMatch api o req w h params hm
  have hmethod : ∀ h, tableEntry req.method req.path = some h → h ≠ .preflight →
      req.method ≠ "OPTIONS" := by
    intro h ht hne hO
    simp [tableEntry, hO] at ht
    exact hne ht.symm
  have hparam : ∀ h id, tableEntry req.method req.path = some h → h ≠ .preflight →
      stripSlashes req.path = ["todos", id] → paramId params = id := by
    intro h id ht hne hpath
    rw [hid id (hmethod h ht hne) hpath (by rw [ht]; simp)]
    rfl
  refine ⟨fun ht => ?_, fun ht => ?_, fun ht => ?_, fun ht => ?_, fun id hpath => ⟨fun ht => ?_,
    fun ht => ?_, fun ht => ?_⟩, fun h ht => ⟨tableEntry_ne_notFound _ _ h ht, ?_, ?_, ?_⟩,
    fun ht => ?_⟩
  · rw [hfetch _ ht]; rfl
  · rw [hfetch _ ht]; rfl
  · rw [hfetch _ ht]; rfl
  · rw [hfetch _ ht]; rfl
  · rw [hfetch _ ht]
    simp only [runHandler, hparam _ id ht (by decide) hpath]
  · rw [hfetch _ ht]
    simp only [runHandler, hparam _ id ht (by decide) hpath]
  · rw [hfetch _ ht]
    simp only [runHandler, hparam _ id ht (by decide) hpath]
  · rw [ht] at hm
    exact ⟨params, hm⟩
  · intro hcase
    have hO : req.method ≠ "OPTIONS" := by
      apply hmethod h ht
      rcases hcase with rfl | rfl | rfl <;> decide
    unfold tableEntry at ht
    simp only [if_neg hO] at ht
    match hsp : stripSlashes req.path with
    | [] => rcases hcase with rfl | rfl | rfl <;> simp [hsp, isTodosId] at ht
    | [a] => rcases hcase with rfl | rfl | rfl <;> simp [hsp, isTodosId] at ht <;>
        split_ifs at ht <;> simp at ht
    | [a, b] =>
      have ha : a = "todos" := by
        by_contra hne
        rcases hcase with rfl | rfl | rfl <;> simp [hsp, isTodosId, hne] at ht
      exact ⟨b, by rw [ha]⟩
    | a :: b :: c :: rest =>
      rcases hcase with rfl | rfl | rfl <;> simp [hsp, isTodosId] at ht
  · obtain ⟨r, w', hrun, -, -, -⟩ := runHandler_answers api o params req h w
    refine ⟨r, w', by rw [hfetch h ht, hrun]; rfl, ?_⟩
    exact runHandler_ne_notFound api o params req h w (tableEntry_ne_notFound _ _ h ht) r w' hrun
  · rw [ht] at hm
    rw [hnone ht] at hm
    exact ⟨hm, by rw [fetch_of_firstMatch api o req w _ _ hm]; rfl⟩

/-- C7 at `PATCH /todos`, which the table does not list; at `GET /todos/42`,
listed for the get handler; and at `GET /todos/` and `POST /todos/`, listed for
the list and the create handler. -/
theorem dispatch_follows_route_table_witness :
    fetch hexApi (calm 0) ⟨"PATCH", ["todos"], .error "no body"⟩ worldAB =
        (some (json (.obj [("success", .bool false), ("error", .str "Route not found")])
          404 corsHeaders), worldAB) ∧
      fetch hexApi (calm 0) ⟨"GET", ["todos", "42"], .error "no body"⟩ worldAB =
        respond (getTodo hexApi (calm 0) "42" worldAB) ∧
      fetch hexApi (calm 0) ⟨"GET", ["todos", ""], .error "no body"⟩ worldAB =
        respond (listTodos (calm 0) worldAB) ∧
      fetch hexApi (calm 0) ⟨"POST", ["todos", ""], .ok bodyTitleA⟩ emptyWorld =
        respond (createTodo (calm 0) (.ok bodyTitleA) emptyWorld) :=
  ⟨((dispatch_follows_route_table hexApi (calm 0)
      ⟨"PATCH", ["todos"], .error "no body"⟩ worldAB).2.2.2.2.2.2 rfl).2,
    ((dispatch_follows_route_table hexApi (calm 0)
      ⟨"GET", ["todos", "42"], .error "no body"⟩ worldAB).2.2.2.2.1 "42" rfl).1 rfl,
    (dispatch_follows_route_table hexApi (calm 0)
      ⟨"GET", ["todos", ""], .error "no body"⟩ worldAB).2.2.1 rfl,
    (dispatch_follows_route_table hexApi (calm 0)
      ⟨"POST", ["todos", ""], .ok bodyTitleA⟩ emptyWorld).2.2.2.1 rfl⟩

end TodoApi
